import Mathlib

/-!
Verification development for the rainfall-alarm-system server.

This file gives a shallow embedding, in Lean 4, of the core logic of the
repository's server:

* `server/services/weatherAlertService.js` — bulletin parsing, the
  per-authority latest-bulletin selection of `fetchWeatherAlerts`, and the
  IDLE/ACTIVE state update of `updateAlertState`;
* `server/services/alarmService.js` — `checkAlarmCondition` with its
  realtime-resolution priority chain, the two thresholds, the per-cycle
  forecast cache, and the persisted readings;
* `server/services/kmaAPI.js` — the payload processing of
  `getAWSRealtime15min`, `getForecast45min`, `parseVsrtGridText` and the
  grid path of `getVsrtForecastHourly`, plus the daily-quota guard of
  `callKmaApi`;
* `server/scheduler.js` — `getErrorBackoff` and the grid-batching loop of
  `processStations`.

JavaScript numbers are modelled as `ℚ` (rainfall values) and `Int`/`Nat`
(counters, grid coordinates); `x.toFixed(1)` is modelled as rounding to the
nearest tenth; `null`/`undefined` fields are modelled as `Option`; the
side-effecting pieces (HTTP calls, DB inserts, module-level mutable state)
are modelled by explicit state passing and by logs of the externally
observable events (fetches issued, rows inserted, evaluations performed).
-/

/-! ### JavaScript string and number primitives

Models of the JavaScript primitives the server code relies on: the `\s`
whitespace class (restricted to the whitespace characters that occur in the
provider's payloads), `String.prototype.trim`, splitting on `/\s+/`,
`parseInt(s, 10)` and `parseFloat(s)` (decimal forms only: the payloads
never use hexadecimal or exponent forms), and `(+x.toFixed(1))` as rounding
to the nearest tenth. `none` models JavaScript `NaN`. -/

def isJsWs (c : Char) : Bool :=
  c = ' ' ∨ c = '\t' ∨ c = '\n' ∨ c = '\r' ∨ c = '\x0b' ∨ c = '\x0c' ∨
  c = '\u00A0' ∨ c = '　' ∨ c = '\uFEFF'

def jsTrim (s : String) : String :=
  ⟨((s.data.dropWhile isJsWs).reverse.dropWhile isJsWs).reverse⟩

/-- Splitting a character list at every occurrence of a separator, as
JavaScript `String.prototype.split` with a one-character separator does
(kept structural so that concrete payloads evaluate inside the kernel;
the core `String.splitOn` is defined by well-founded recursion and does
not reduce there). -/
def splitOnPred (p : Char → Bool) : List Char → List (List Char)
  | [] => [[]]
  | c :: rest =>
    if p c then [] :: splitOnPred p rest
    else
      match splitOnPred p rest with
      | [] => [[c]]
      | h :: t => (c :: h) :: t

def splitOnChar (sep : Char) (l : List Char) : List (List Char) :=
  splitOnPred (· = sep) l

/-- Model of `s.split(/\s+/)` on an already-trimmed string followed by
dropping empty tokens (the code always filters those out or trims
first). -/
def splitWsTokens (s : String) : List String :=
  ((splitOnPred isJsWs s.data).map String.mk).filter (· ≠ "")

/-- Model of `String.prototype.toUpperCase` on the ASCII column names the
VSRT header parser compares against. -/
def jsToUpper (s : String) : String :=
  ⟨s.data.map Char.toUpper⟩

def digitsVal (ds : List Char) : Nat :=
  ds.foldl (fun n c => n * 10 + (c.toNat - 48)) 0

def parseIntJs (s : String) : Option Int :=
  let l := s.data.dropWhile isJsWs
  let sl : Int × List Char :=
    match l with
    | '-' :: r => (-1, r)
    | '+' :: r => (1, r)
    | _ => (1, l)
  let ds := sl.2.takeWhile Char.isDigit
  if ds.isEmpty then none else some (sl.1 * (digitsVal ds : Int))

def parseFloatJs (s : String) : Option ℚ :=
  let l := s.data.dropWhile isJsWs
  let sl : Int × List Char :=
    match l with
    | '-' :: r => (-1, r)
    | '+' :: r => (1, r)
    | _ => (1, l)
  let ip := sl.2.takeWhile Char.isDigit
  let r1 := sl.2.dropWhile Char.isDigit
  let fp : List Char :=
    match r1 with
    | '.' :: r => r.takeWhile Char.isDigit
    | _ => []
  if ip.isEmpty ∧ fp.isEmpty then none
  else some (mkRat (sl.1 * (digitsVal (ip ++ fp) : Int)) ((10 : Nat) ^ fp.length))

/-- Model of `+x.toFixed(1)`: round to the nearest tenth.  Written with
`mkRat` and `Int.fdiv` so that it evaluates inside the kernel (the
`Rat` field operations are irreducible); `roundTenth_eq` below shows it is
`round (q * 10) / 10`. -/
def roundTenth (q : ℚ) : ℚ :=
  mkRat (Int.fdiv (20 * q.num + (q.den : Int)) (2 * (q.den : Int))) 10

/-- JavaScript subtraction on rainfall values, in the kernel-evaluable
`mkRat` form; `qsub_eq_sub` below shows it is subtraction on `ℚ`. -/
def qsub (a b : ℚ) : ℚ :=
  mkRat (a.num * b.den - b.num * a.den) (a.den * b.den)

theorem qsub_eq_sub (a b : ℚ) : qsub a b = a - b :=
  (Rat.sub_def' a b).symm

/-- Flooring division of an integer by a natural number: `Int.fdiv` agrees
with the floor of the exact rational quotient (for a nonnegative divisor,
`Int.fdiv` coincides with Euclidean division, which Mathlib already knows
to be the rational floor). -/
theorem fdiv_natCast_eq_floor (n : ℤ) (d : ℕ) :
    Int.fdiv n (d : ℤ) = ⌊(n : ℚ) / (d : ℚ)⌋ := by
  rw [Int.fdiv_eq_ediv n (Int.natCast_nonneg d), Rat.floor_intCast_div_natCast]

/-- The kernel-evaluable `roundTenth` agrees with rounding `q * 10` to the
nearest integer and dividing by ten. -/
theorem roundTenth_eq (q : ℚ) : roundTenth q = ((round (q * 10) : ℤ) : ℚ) / 10 := by
  unfold roundTenth
  rw [Rat.mkRat_eq_divInt, Rat.divInt_eq_div]
  have hcast : (2 * (q.den : ℤ)) = ((2 * q.den : ℕ) : ℤ) := by
    push_cast
    ring
  rw [hcast, fdiv_natCast_eq_floor, round_eq]
  have hd : ((q.den : ℚ)) ≠ 0 := by
    have h0 := q.den_pos
    positivity
  have hnum : (q.num : ℚ) = q * (q.den : ℚ) := by
    have h0 := Rat.num_div_den q
    rw [div_eq_iff hd] at h0
    exact h0
  have harg : (((20 * q.num + (q.den : ℤ) : ℤ)) : ℚ) / (((2 * q.den : ℕ) : ℕ) : ℚ)
      = q * 10 + 1 / 2 := by
    have hne : ((2 * q.den : ℕ) : ℚ) ≠ 0 := by
      push_cast
      simp [hd]
    rw [div_eq_iff hne]
    push_cast
    rw [hnum]
    ring
  rw [harg]
  norm_num

/-! ### Generic association lists

The JavaScript plain objects and `Map`s used as keyed stores
(`latestByStn`, `gridGroups`, `forecastCache`, the VSRT grid cache) are
modelled as association lists in insertion order. -/

def alookup {κ ν : Type} [DecidableEq κ] (k : κ) : List (κ × ν) → Option ν
  | [] => none
  | (k', v) :: rest => if k' = k then some v else alookup k rest

def aupdate {κ ν : Type} [DecidableEq κ] (k : κ) (f : ν → ν) : List (κ × ν) → List (κ × ν)
  | [] => []
  | (k', v) :: rest => if k' = k then (k', f v) :: rest else (k', v) :: aupdate k f rest

def aset {κ ν : Type} [DecidableEq κ] (k : κ) (v : ν) : List (κ × ν) → List (κ × ν)
  | [] => [(k, v)]
  | (k', v') :: rest => if k' = k then (k, v) :: rest else (k', v') :: aset k v rest

theorem alookup_eq_none {κ ν : Type} [DecidableEq κ] (k : κ) (l : List (κ × ν)) :
    alookup k l = none ↔ ∀ v, (k, v) ∉ l := by
  induction l with
  | nil => simp [alookup]
  | cons p rest ih =>
    obtain ⟨k', v⟩ := p
    by_cases h : k' = k
    · subst h
      simp only [alookup, if_pos rfl]
      constructor
      · intro hx
        cases hx
      · intro hall
        exact absurd (List.mem_cons_self _ _) (hall v)
    · simp only [alookup, if_neg h, ih, List.mem_cons]
      constructor
      · rintro hall v (hv | hv)
        · exact h (congrArg Prod.fst hv).symm
        · exact hall v hv
      · intro hall v hv
        exact hall v (Or.inr hv)

theorem alookup_some_mem {κ ν : Type} [DecidableEq κ] {k : κ} {l : List (κ × ν)} {v : ν}
    (h : alookup k l = some v) : (k, v) ∈ l := by
  induction l with
  | nil => simp [alookup] at h
  | cons p rest ih =>
    obtain ⟨k', v'⟩ := p
    by_cases hk : k' = k
    · subst hk
      have hv : v' = v := by simpa [alookup] using h
      subst hv
      exact List.mem_cons_self _ _
    · simp only [alookup, if_neg hk] at h
      exact List.mem_cons_of_mem _ (ih h)

theorem mem_alookup {κ ν : Type} [DecidableEq κ] {k : κ} {l : List (κ × ν)} {v : ν}
    (hnd : (l.map Prod.fst).Nodup) (h : (k, v) ∈ l) : alookup k l = some v := by
  induction l with
  | nil => simp at h
  | cons p rest ih =>
    obtain ⟨k', v'⟩ := p
    simp only [List.map_cons, List.nodup_cons] at hnd
    rcases List.mem_cons.mp h with h1 | h1
    · cases h1
      simp [alookup]
    · have hk : k' ≠ k := by
        intro hkk
        subst hkk
        exact hnd.1 (List.mem_map_of_mem Prod.fst h1)
      simp only [alookup, if_neg hk]
      exact ih hnd.2 h1

theorem aupdate_map_fst {κ ν : Type} [DecidableEq κ] (k : κ) (f : ν → ν) (l : List (κ × ν)) :
    (aupdate k f l).map Prod.fst = l.map Prod.fst := by
  induction l with
  | nil => rfl
  | cons p rest ih =>
    obtain ⟨k', v⟩ := p
    by_cases h : k' = k
    · subst h
      simp [aupdate, ih]
    · simp [aupdate, if_neg h, ih]

theorem mem_aupdate {κ ν : Type} [DecidableEq κ] {k k' : κ} {f : ν → ν} {l : List (κ × ν)} {v' : ν}
    (hnd : (l.map Prod.fst).Nodup) (h : (k', v') ∈ aupdate k f l) :
    ((k', v') ∈ l ∧ k' ≠ k) ∨ (k' = k ∧ ∃ v, (k, v) ∈ l ∧ v' = f v) := by
  induction l with
  | nil => simp [aupdate] at h
  | cons p rest ih =>
    obtain ⟨k0, v0⟩ := p
    simp only [List.map_cons, List.nodup_cons] at hnd
    by_cases hk : k0 = k
    · subst hk
      simp only [aupdate, if_pos rfl] at h
      rcases List.mem_cons.mp h with h1 | h1
      · obtain ⟨h2, h3⟩ := Prod.mk.inj h1
        exact Or.inr ⟨h2, v0, List.mem_cons_self _ _, h3⟩
      · have hne : k' ≠ k0 := by
          intro hkk
          subst hkk
          exact hnd.1 (List.mem_map_of_mem Prod.fst h1)
        exact Or.inl ⟨List.mem_cons_of_mem _ h1, hne⟩
    · simp only [aupdate, if_neg hk] at h
      rcases List.mem_cons.mp h with h1 | h1
      · obtain ⟨h2, h3⟩ := Prod.mk.inj h1
        subst h2
        subst h3
        exact Or.inl ⟨List.mem_cons_self _ _, hk⟩
      · rcases ih hnd.2 h1 with ⟨hm, hne⟩ | ⟨he, v, hv, hfv⟩
        · exact Or.inl ⟨List.mem_cons_of_mem _ hm, hne⟩
        · exact Or.inr ⟨he, v, List.mem_cons_of_mem _ hv, hfv⟩

theorem mem_aset {κ ν : Type} [DecidableEq κ] {k : κ} {v : ν} {l : List (κ × ν)} {p : κ × ν}
    (h : p ∈ aset k v l) : p = (k, v) ∨ p ∈ l := by
  induction l with
  | nil => simpa [aset] using h
  | cons q rest ih =>
    obtain ⟨k0, v0⟩ := q
    by_cases hk : k0 = k
    · subst hk
      rcases List.mem_cons.mp (by simpa [aset] using h) with h1 | h1
      · exact Or.inl h1
      · exact Or.inr (List.mem_cons_of_mem _ h1)
    · rcases List.mem_cons.mp (by simpa [aset, if_neg hk] using h) with h1 | h1
      · exact Or.inr (h1 ▸ List.mem_cons_self _ _)
      · rcases ih h1 with h2 | h2
        · exact Or.inl h2
        · exact Or.inr (List.mem_cons_of_mem _ h2)

/-! ### weatherAlertService.js — bulletin parsing and region resolution -/

/-- One rain alert parsed out of a bulletin's `t2` text
(`services/weatherAlertService.js`, `parseAlertTitle`). -/
structure Alert where
  type : String
  level : String
  regions : List String
  raw : String
deriving DecidableEq, Repr

/-- The `REGION_TO_METRO_ID` table of `weatherAlertService.js`:
KMA region names (with aliases) to database metro ids. -/
def REGION_TO_METRO_ID (r : String) : Option Nat :=
  match r with
  | "서울특별시" | "서울" => some 1
  | "부산광역시" | "부산" => some 2
  | "대구광역시" | "대구" => some 3
  | "인천광역시" | "인천" => some 4
  | "광주광역시" | "광주" => some 5
  | "대전광역시" | "대전" => some 6
  | "울산광역시" | "울산" => some 7
  | "세종특별자치시" | "세종" => some 8
  | "경기도" | "경기도남부" | "경기도북부" | "경기남부" | "경기북부" => some 9
  | "강원특별자치도" | "강원도" | "강원도영서" | "강원도영동"
  | "강원영서" | "강원영동" | "강원" => some 10
  | "충청북도" | "충북" => some 11
  | "충청남도" | "충남" => some 12
  | "전북특별자치도" | "전라북도" | "전북" => some 13
  | "전라남도" | "전남" => some 14
  | "경상북도" | "경북" | "경북북부" | "경북남부" => some 15
  | "경상남도" | "경남" | "경남서부" | "경남동부" => some 16
  | "제주특별자치도" | "제주도" | "제주" => some 17
  | _ => none

/-- Model of a JavaScript `Set`-insertion into an insertion-ordered list. -/
def setAdd (acc : List Nat) (id : Nat) : List Nat :=
  if id ∈ acc then acc else acc ++ [id]

/-- Embedding of `resolveRegionsToMetroIds`: region names to the
insertion-ordered, duplicate-free list of metro ids (the JS `Set`). -/
def resolveRegionsToMetroIds (regions : List String) : List Nat :=
  regions.foldl (fun acc region =>
    match REGION_TO_METRO_ID region with
    | some id => setAdd acc id
    | none => acc) []

/-- Strips an exact literal from the front of a character list; `none` when
the literal is not a prefix.  Used to model the literal parts of the regex
in `parseAlertTitle`. -/
def dropLit : List Char → List Char → Option (List Char)
  | [], l => some l
  | _ :: _, [] => none
  | c :: cs, d :: ds => if c = d then dropLit cs ds else none

/-- Embedding of `parseAlertTitle` (`weatherAlertService.js`): matches the
regex `^(호우)(주의보|경보)\s*:\s*(.+)$` (a falsy `t2` gives `null`; `.`
does not match a newline, so the `.+` capture must be a newline-free
nonempty suffix; the captured region text is split on commas, each piece
trimmed, and empty pieces dropped). -/
def parseAlertTitle (t2 : String) : Option Alert :=
  if t2 = "" then none
  else
    match dropLit "호우".data t2.data with
    | none => none
    | some rest1 =>
      let lv : Option (String × List Char) :=
        match dropLit "주의보".data rest1 with
        | some r => some ("주의보", r)
        | none =>
          match dropLit "경보".data rest1 with
          | some r => some ("경보", r)
          | none => none
      match lv with
      | none => none
      | some (level, rest2) =>
        match rest2.dropWhile isJsWs with
        | ':' :: rest =>
          if rest = [] then none
          else
            let r := rest.dropWhile isJsWs
            if r ≠ [] then
              if r.contains '\n' then none
              else some { type := "호우", level := level,
                          regions := (((splitOnChar ',' r).map (fun cs => jsTrim ⟨cs⟩)).filter (· ≠ "")),
                          raw := t2 }
            else
              if rest.getLast? = some '\n' then none
              else some { type := "호우", level := level, regions := [], raw := t2 }
        | _ => none

/-! ### weatherAlertService.js — fetchWeatherAlerts latest-per-authority selection -/

/-- One bulletin item of the `getWthrWrnList` response.  `stnId` is the
issuing regional authority (already coerced to a string; `none` models a
missing `stnId`/`stn_id`, which the code maps to `"national"`), `tmFc` the
issue time, `t2` the bulletin text. -/
structure WrnItem where
  stnId : Option String
  tmFc : Option String
  t2 : Option String
deriving DecidableEq, Repr

/-- Model of `String(item.stnId ?? item.stn_id ?? 'national')`. -/
def stnKey (it : WrnItem) : String :=
  it.stnId.getD "national"

/-- Model of `item.tmFc || '0'` (a falsy `tmFc` becomes `'0'`). -/
def tmFcStr (it : WrnItem) : String :=
  match it.tmFc with
  | none => "0"
  | some s => if s = "" then "0" else s

/-- Model of `parseInt(item.tmFc || '0', 10)`; `none` is `NaN`. -/
def tmFcNum (it : WrnItem) : Option Int :=
  parseIntJs (tmFcStr it)

/-- JavaScript `>` on numbers where `none` models `NaN` (any comparison
with `NaN` is false). -/
def jsGtOpt (a b : Option Int) : Bool :=
  match a, b with
  | some x, some y => decide (y < x)
  | _, _ => false

/-- One step of the `latestByStn` grouping loop of `fetchWeatherAlerts`:
keep, per `stnId`, the bulletin with the strictly greatest `tmFc`
(a missing key reads as `'0'`, so the first accepted bulletin must have a
positive issue time). -/
def upsertLatest (acc : List (String × WrnItem)) (it : WrnItem) : List (String × WrnItem) :=
  match alookup (stnKey it) acc with
  | none =>
    if jsGtOpt (tmFcNum it) (some 0) then acc ++ [(stnKey it, it)] else acc
  | some prev =>
    if jsGtOpt (tmFcNum it) (tmFcNum prev) then aupdate (stnKey it) (fun _ => it) acc else acc

/-- The `latestByStn` object of `fetchWeatherAlerts` after the grouping
loop, as an insertion-ordered association list. -/
def latestByStn (items : List WrnItem) : List (String × WrnItem) :=
  items.foldl upsertLatest []

/-- The alerts parsed out of one bulletin: `t2` split into lines, trimmed,
empty lines dropped, each line fed to `parseAlertTitle` (a falsy `t2`
skips the bulletin). -/
def bulletinAlerts (b : WrnItem) : List Alert :=
  match b.t2 with
  | none => []
  | some t2 =>
    if t2 = "" then []
    else (((splitOnChar '\n' t2.data).map (fun cs => jsTrim ⟨cs⟩)).filter (· ≠ "")).filterMap parseAlertTitle

/-- Embedding of the non-mock, non-error path of `fetchWeatherAlerts`
(`weatherAlertService.js`): the rain-alert list is the concatenation of the
alerts parsed from each authority's latest bulletin. -/
def fetchWeatherAlerts (items : List WrnItem) : List Alert :=
  ((latestByStn items).map (fun kb => bulletinAlerts kb.2)).join

/-- Follows the spec's words, not the code: the rejected policy that parses
only the single globally most recent bulletin. -/
def specGlobalLatestAlerts (items : List WrnItem) : List Alert :=
  match items.foldl (fun (best : Option WrnItem) it =>
      match best with
      | none => some it
      | some b => if jsGtOpt (tmFcNum it) (tmFcNum b) then some it else some b) none with
  | none => []
  | some b => bulletinAlerts b

/-- Follows the spec's words, not the code: the rejected policy that unions
the alerts of every bulletin seen today. -/
def specUnionAllAlerts (items : List WrnItem) : List Alert :=
  (items.map bulletinAlerts).join

/-! ### weatherAlertService.js — updateAlertState -/

/-- The two alert levels of the `alertState` singleton. -/
inductive AlertLevel
  | IDLE
  | ACTIVE
deriving DecidableEq, Repr

/-- The `alertState` module-level singleton of `weatherAlertService.js`.
Timestamps are opaque strings (the ISO string of the wall clock at the
update, passed in explicitly). -/
structure AlertState where
  level : AlertLevel
  affectedMetroIds : List Nat
  activeAlerts : List Alert
  lastChecked : Option String
  consecutiveErrors : Nat
  lastError : Option String
deriving DecidableEq, Repr

/-- Return value of `updateAlertState`. -/
structure UpdateResult where
  changed : Bool
  state : AlertState
  error : Bool
deriving DecidableEq, Repr

/-- The union of all metro ids resolved from the fetched alerts, as the
insertion-ordered JS `Set` of `updateAlertState`. -/
def collectMetroIds (alerts : List Alert) : List Nat :=
  alerts.foldl (fun acc a => (resolveRegionsToMetroIds a.regions).foldl setAdd acc) []

/-- Embedding of `updateAlertState` (`weatherAlertService.js`): the fetch
outcome (`alerts`, `hasError`) is passed in, `now` is the wall-clock ISO
string.  On error the previous level and affected set are kept and the
error counter is bumped; on success the counter resets and the state
becomes IDLE (no alerts) or ACTIVE with the sorted union of resolved metro
ids; `changed` reports level flips only. -/
def updateAlertState (prev : AlertState) (alerts : List Alert) (hasError : Bool)
    (now : String) : UpdateResult :=
  if hasError then
    { changed := false,
      state := { prev with
                 consecutiveErrors := prev.consecutiveErrors + 1,
                 lastError := some now,
                 lastChecked := some now },
      error := true }
  else if alerts.isEmpty then
    let st : AlertState :=
      { level := .IDLE, affectedMetroIds := [], activeAlerts := [],
        lastChecked := some now, consecutiveErrors := 0, lastError := none }
    { changed := decide (prev.level ≠ st.level), state := st, error := false }
  else
    let st : AlertState :=
      { level := .ACTIVE,
        affectedMetroIds := (collectMetroIds alerts).insertionSort (· ≤ ·),
        activeAlerts := alerts,
        lastChecked := some now, consecutiveErrors := 0, lastError := none }
    { changed := decide (prev.level ≠ st.level), state := st, error := false }

/-! ### alarmService.js — checkAlarmCondition -/

/-- Threshold `REALTIME_THRESHOLD` of `alarmService.js` (mm per 15 min). -/
def REALTIME_THRESHOLD : ℚ := 20

/-- Threshold `FORECAST_THRESHOLD` of `alarmService.js` (mm per hour). -/
def FORECAST_THRESHOLD : ℚ := 55

/-- Everything observable about one `checkAlarmCondition` evaluation: the
returned record fields, plus the rows inserted into `rainfall_realtime`
and `rainfall_forecast` and the forecast cache left behind. -/
structure CheckResult where
  realtime15min : ℚ
  forecastHourly : ℚ
  alarm : Bool
  forecastCalled : Bool
  realtimeInsert : ℚ
  forecastInsert : ℚ
  cacheOut : List ((Int × Int) × ℚ)
deriving DecidableEq, Repr

/-- The realtime-resolution priority chain of `checkAlarmCondition`
(`alarmService.js` lines 45-67): the AWS cache value wins when present;
otherwise the RN1 delta against the per-grid baseline
(`prevRN1ByGrid[gridKey]`), clamped to 0 when the baseline is missing or
exceeds the current accumulation, and rounded via `toFixed(1)`. -/
def resolveRealtime (awsRn15 preloadedRealtime : Option ℚ) (fetchedRN1 : ℚ)
    (prevRN1 : Option ℚ) : ℚ :=
  match awsRn15 with
  | some v => v
  | none =>
    let currentRN1 := preloadedRealtime.getD fetchedRN1
    match prevRN1 with
    | some p => if p ≤ currentRN1 then roundTenth (qsub currentRN1 p) else 0
    | none => 0

/-- Embedding of `checkAlarmCondition` (`alarmService.js`).  Inputs:
`awsRn15` is `getAwsRn15FromCache` for this station, `preloadedRealtime`
and the grid `(nx, ny)` come from the batcher (the fallback
`getAWSRealtime15min`/`convertToGrid` results are `fetchedRN1`/the same
coordinates), `prevRN1` is `prevRN1ByGrid[gridKey]`, `forecastCache` the
per-cycle cache and `oracle` the external `getVsrtForecastHourly`. -/
def checkAlarmCondition (awsRn15 preloadedRealtime : Option ℚ) (fetchedRN1 : ℚ)
    (nx ny : Int) (prevRN1 : Option ℚ) (forecastCache : List ((Int × Int) × ℚ))
    (oracle : Int → Int → ℚ) : CheckResult :=
  let realtime15min := resolveRealtime awsRn15 preloadedRealtime fetchedRN1 prevRN1
  if realtime15min ≤ REALTIME_THRESHOLD then
    { realtime15min := realtime15min, forecastHourly := 0, alarm := false,
      forecastCalled := false, realtimeInsert := realtime15min,
      forecastInsert := 0, cacheOut := forecastCache }
  else
    match alookup (nx, ny) forecastCache with
    | some f =>
      { realtime15min := realtime15min, forecastHourly := f,
        alarm := decide (FORECAST_THRESHOLD ≤ f), forecastCalled := false,
        realtimeInsert := realtime15min, forecastInsert := f,
        cacheOut := forecastCache }
    | none =>
      let f := oracle nx ny
      { realtime15min := realtime15min, forecastHourly := f,
        alarm := decide (FORECAST_THRESHOLD ≤ f), forecastCalled := true,
        realtimeInsert := realtime15min, forecastInsert := f,
        cacheOut := forecastCache ++ [((nx, ny), f)] }

/-! ### kmaAPI.js — daily quota guard of callKmaApi -/

/-- The module-level `{apiCallCount, apiCallDate}` pair of `kmaAPI.js`. -/
structure GatewayState where
  apiCallCount : Nat
  apiCallDate : String
deriving DecidableEq, Repr

/-- Outcome of one `callKmaApi` invocation: `ok = false` models the thrown
daily-limit error, `httpIssued` whether the axios request was started. -/
structure CallOutcome where
  ok : Bool
  httpIssued : Bool
  state : GatewayState
deriving DecidableEq, Repr

/-- Embedding of the quota guard of `callKmaApi` (`kmaAPI.js` lines 39-63):
reset the counter on a provider-local (KST) date change, throw before any
HTTP request once the limit is reached, otherwise count the call
(`trackApiCall`) and issue the request. -/
def callKmaApi (s : GatewayState) (dailyLimit : Nat) (today : String) : CallOutcome :=
  let s1 := if s.apiCallDate ≠ today then GatewayState.mk 0 today else s
  if dailyLimit ≤ s1.apiCallCount then
    { ok := false, httpIssued := false, state := s1 }
  else
    { ok := true, httpIssued := true,
      state := { apiCallCount := s1.apiCallCount + 1, apiCallDate := s1.apiCallDate } }

/-- The gateway state after `n` further `callKmaApi` invocations, all on
the same provider-local day. -/
def callsN (s : GatewayState) (dailyLimit : Nat) (today : String) : Nat → GatewayState
  | 0 => s
  | n + 1 => (callKmaApi (callsN s dailyLimit today n) dailyLimit today).state

/-! ### scheduler.js — error backoff and the grid batcher -/

/-- Interval `ALERT_CHECK_IDLE` (ms) of `scheduler.js`. -/
def ALERT_CHECK_IDLE : ℕ := 30 * 60 * 1000

/-- Interval `ALERT_CHECK_ACTIVE` (ms) of `scheduler.js`. -/
def ALERT_CHECK_ACTIVE : ℕ := 5 * 60 * 1000

/-- Embedding of `getErrorBackoff` (`scheduler.js` lines 50-53), for a
consecutive-error count of at least 1 (the only way it is called:
`updateAlertState` has just incremented the counter). -/
def getErrorBackoff (consecutiveErrors : Nat) : ℕ :=
  min (ALERT_CHECK_ACTIVE * 2 ^ (consecutiveErrors - 1)) ALERT_CHECK_IDLE

/-- A monitored station as the batcher sees it (`weather_stations` row):
identity plus the coordinate fed to `convertToGrid`. -/
structure PStation where
  id : Nat
  lat : ℚ
  lon : ℚ
deriving DecidableEq, Repr

/-- Everything observable about one `processStations` cycle: the realtime
fetches issued (one per grid entry), the `checkAlarmCondition` invocations
with the preloaded value and grid they received, and the `updateGridRN1`
baseline writes. -/
structure CycleLog where
  fetches : List (Int × Int)
  evals : List (PStation × ℚ × (Int × Int))
  baselines : List ((Int × Int) × ℚ)
deriving DecidableEq, Repr

def CycleLog.append (a b : CycleLog) : CycleLog :=
  ⟨a.fetches ++ b.fetches, a.evals ++ b.evals, a.baselines ++ b.baselines⟩

def emptyCycleLog : CycleLog := ⟨[], [], []⟩

/-- One step of the `gridGroups` grouping loop of `processStations`
(`scheduler.js` lines 109-117): push the station into its cell's group,
creating the group on first sight.  `toGrid` abstracts the pure float
computation of `convertToGrid`. -/
def addStation (toGrid : ℚ → ℚ → Int × Int) (acc : List ((Int × Int) × List PStation))
    (s : PStation) : List ((Int × Int) × List PStation) :=
  match alookup (toGrid s.lat s.lon) acc with
  | some _ => aupdate (toGrid s.lat s.lon) (fun g => g ++ [s]) acc
  | none => acc ++ [(toGrid s.lat s.lon, [s])]

/-- The `gridGroups` object of `processStations` as an insertion-ordered
association list from grid cell to the stations in it. -/
def gridGroups (toGrid : ℚ → ℚ → Int × Int) (stations : List PStation) :
    List ((Int × Int) × List PStation) :=
  stations.foldl (addStation toGrid) []

/-- The observable events of processing one grid entry (`scheduler.js`
lines 130-173): one `getAWSRealtime15min` fetch for the cell; on success
(`fetch` returns a value) every station of the group is evaluated with the
cell's single fetched value and the cell's coordinates, and the cell's
baseline is updated; a rejected fetch skips the group. -/
def cellLog (fetch : Int × Int → Option ℚ) (c : (Int × Int) × List PStation) : CycleLog :=
  { fetches := [c.1],
    evals := match fetch c.1 with
             | none => []
             | some v => c.2.map (fun s => (s, v, c.1)),
    baselines := match fetch c.1 with
                 | none => []
                 | some v => [(c.1, v)] }

/-- Processing a list of grid entries in order. -/
def processCells (fetch : Int × Int → Option ℚ) (cells : List ((Int × Int) × List PStation)) :
    CycleLog :=
  cells.foldl (fun log c => log.append (cellLog fetch c)) emptyCycleLog

/-- Model of `chunk(arr, n)` of `scheduler.js` at the fixed `BATCH_SIZE = 5`. -/
def chunk5 {α : Type} : List α → List (List α)
  | a :: b :: c :: d :: e :: rest => [a, b, c, d, e] :: chunk5 rest
  | [] => []
  | l => [l]

/-- Embedding of the batching loop of `processStations` (`scheduler.js`
lines 109-173): group stations by grid cell, split the cells into batches
of `BATCH_SIZE`, process the batches in order. -/
def processStations (toGrid : ℚ → ℚ → Int × Int) (fetch : Int × Int → Option ℚ)
    (stations : List PStation) : CycleLog :=
  (chunk5 (gridGroups toGrid stations)).foldl
    (fun log batch => log.append (processCells fetch batch)) emptyCycleLog

/-! ### kmaAPI.js — getAWSRealtime15min payload processing -/

/-- One item of a `getUltraSrtNcst` response body. -/
structure NcstItem where
  category : String
  obsrValue : Option String
deriving DecidableEq, Repr

/-- Model of `parseInt(v ?? '0', 10)`: a `null`/`undefined` value reads as
`'0'`; the result is `none` for `NaN`. -/
def jsParseIntDefault0 (v : Option String) : Option Int :=
  match v with
  | none => parseIntJs "0"
  | some s => parseIntJs s

/-- Embedding of the item processing of `getAWSRealtime15min` (`kmaAPI.js`
lines 209-237), given the response's item list (the mock path, a missing
body and every caught error return 0 and are not modelled here): a missing
PTY item or PTY observed 0 forces 0; then the RN1 item is parsed, with
`'강수없음'`, missing values and negative sentinels mapped to 0, and the
result rounded via `toFixed(1)`. -/
def ncstResolve (items : List NcstItem) : ℚ :=
  match items.find? (fun i => i.category = "PTY") with
  | none => 0
  | some ptyItem =>
    if jsParseIntDefault0 ptyItem.obsrValue = some 0 then 0
    else
      match items.find? (fun i => i.category = "RN1") with
      | none => 0
      | some rn1Item =>
        match rn1Item.obsrValue with
        | none => 0
        | some val =>
          if val = "강수없음" then 0
          else
            let rainfall := (parseFloatJs val).getD 0
            if rainfall < 0 then 0 else roundTenth rainfall

/-! ### kmaAPI.js — getForecast45min payload processing -/

/-- One item of a `getUltraSrtFcst` response body. -/
structure FcstItem where
  category : String
  fcstValue : Option String
  fcstDate : String
  fcstTime : String
deriving DecidableEq, Repr

/-- Embedding of the item processing of `getForecast45min` (`kmaAPI.js`
lines 272-309), given the response's item list: no RN1 items gives 0; a
missing matching PTY item or forecast PTY 0 gives 0; otherwise the first
RN1 item's value is parsed (`'강수없음'` and `null` give 0, `NaN` gives 0
via `|| 0`) and rounded via `toFixed(1)`.  Note: unlike
`getAWSRealtime15min` and `parseVsrtGridText`, this path has no negative
sentinel filter. -/
def fcstResolve (items : List FcstItem) : ℚ :=
  let rnItems := items.filter (fun i => i.category = "RN1")
  let ptyItems := items.filter (fun i => i.category = "PTY")
  match rnItems with
  | [] => 0
  | firstRn1 :: _ =>
    match ptyItems.find?
        (fun p => p.fcstDate = firstRn1.fcstDate ∧ p.fcstTime = firstRn1.fcstTime) with
    | none => 0
    | some matchingPty =>
      if jsParseIntDefault0 matchingPty.fcstValue = some 0 then 0
      else
        let total : ℚ :=
          match firstRn1.fcstValue with
          | none => 0
          | some val => if val = "강수없음" then 0 else (parseFloatJs val).getD 0
        roundTenth total

/-! ### kmaAPI.js — VSRT grid text parsing and the grid path of getVsrtForecastHourly -/

/-- One cell value of the VSRT national grid cache: the hourly forecast
rain `rn1` and the precipitation type `pty` (`none` models `NaN`;
`some (-1)` is the explicit sentinel stored when the PTY column is
absent). -/
structure VsrtVal where
  rn1 : ℚ
  pty : Option Int
deriving DecidableEq, Repr

/-- The four column indices tracked by `parseVsrtGridText`, `-1` when not
yet seen in a header line. -/
structure VsrtCols where
  colNx : Int
  colNy : Int
  colRn1 : Int
  colPty : Int
deriving DecidableEq, Repr

/-- JavaScript `parts[i]` on an array of tokens: `none` is `undefined`. -/
def optPart (parts : List String) (i : Int) : Option String :=
  if h : 0 ≤ i ∧ i.toNat < parts.length then some (parts.get ⟨i.toNat, h.2⟩) else none

/-- Column-header detection of `parseVsrtGridText`: each token updates the
column index matching its upper-cased name. -/
def headerCols (cols : VsrtCols) (tokens : List String) : VsrtCols :=
  tokens.enum.foldl (fun c p =>
    match jsToUpper p.2 with
    | "NX" => { c with colNx := (p.1 : Int) }
    | "NY" => { c with colNy := (p.1 : Int) }
    | "RN1" => { c with colRn1 := (p.1 : Int) }
    | "PTY" => { c with colPty := (p.1 : Int) }
    | _ => c) cols

/-- One line of `parseVsrtGridText` (`kmaAPI.js` lines 504-553): blank
lines are skipped; `#` lines update the column indices; data lines are
tokenized on whitespace and parsed either by the detected columns (when
`colNx`, `colNy`, `colRn1` are known and the RN1 column is in range) or by
the default five-column layout; rows with unparseable coordinates are
skipped, negative RN1 sentinels are clamped to 0, and the cell is stored
in the grid map. -/
def vsrtLineStep (st : VsrtCols × List ((Int × Int) × VsrtVal)) (line : String) :
    VsrtCols × List ((Int × Int) × VsrtVal) :=
  let trimmed := jsTrim line
  if trimmed = "" then st
  else if trimmed.data.head? = some '#' then
    let tokens := splitWsTokens (jsTrim ⟨(trimmed.data.dropWhile (· = '#')).dropWhile isJsWs⟩)
    (headerCols st.1 tokens, st.2)
  else
    let cols := st.1
    let parts := splitWsTokens trimmed
    let vals : Option (Option Int × Option Int × ℚ × Option Int) :=
      if 0 ≤ cols.colNx ∧ 0 ≤ cols.colNy ∧ 0 ≤ cols.colRn1 ∧ cols.colRn1 < (parts.length : Int) then
        some ((optPart parts cols.colNx).bind parseIntJs,
              (optPart parts cols.colNy).bind parseIntJs,
              ((optPart parts cols.colRn1).bind parseFloatJs).getD 0,
              if 0 ≤ cols.colPty ∧ cols.colPty < (parts.length : Int) then
                (optPart parts cols.colPty).bind parseIntJs
              else some (-1))
      else if 5 ≤ parts.length then
        some ((optPart parts 2).bind parseIntJs,
              (optPart parts 3).bind parseIntJs,
              ((optPart parts 4).bind parseFloatJs).getD 0,
              if 6 ≤ parts.length then (optPart parts 5).bind parseIntJs else some (-1))
      else none
    match vals with
    | none => st
    | some (onx, ony, rn1, pty) =>
      match onx, ony with
      | some nx, some ny =>
        let rn1c := if rn1 < 0 then 0 else rn1
        (cols, aset (nx, ny) (VsrtVal.mk rn1c pty) st.2)
      | _, _ => st

/-- Embedding of `parseVsrtGridText` (`kmaAPI.js`): the response text split
on newlines and folded through `vsrtLineStep`, starting with no known
columns and an empty grid. -/
def parseVsrtGridText (text : String) : List ((Int × Int) × VsrtVal) :=
  (((splitOnChar '\n' text.data).map String.mk).foldl vsrtLineStep (VsrtCols.mk (-1) (-1) (-1) (-1), [])).2

/-- Embedding of the grid lookup of `getVsrtForecastHourly` (`kmaAPI.js`
lines 598-608, identical to the cache-hit path at lines 576-581): a
missing cell gives 0, `pty === 0` forces 0, otherwise the cell's RN1 is
returned rounded via `toFixed(1)`. -/
def vsrtResolve (grid : List ((Int × Int) × VsrtVal)) (nx ny : Int) : ℚ :=
  match alookup (nx, ny) grid with
  | none => 0
  | some v => if v.pty = some 0 then 0 else roundTenth v.rn1

/-! ### Arithmetic helpers -/

theorem roundTenth_nonneg {q : ℚ} (h : 0 ≤ q) : 0 ≤ roundTenth q := by
  rw [roundTenth_eq]
  have h10 : (0 : ℤ) ≤ round (q * 10) := by
    rw [round_eq]
    apply Int.le_floor.mpr
    push_cast
    nlinarith
  have : (0 : ℚ) ≤ ((round (q * 10) : ℤ) : ℚ) := by exact_mod_cast h10
  exact div_nonneg this (by norm_num)

theorem roundTenth_tenths (m : ℤ) : roundTenth ((m : ℚ) / 10) = (m : ℚ) / 10 := by
  rw [roundTenth_eq, div_mul_cancel₀ _ (by norm_num : (10 : ℚ) ≠ 0), round_intCast]

/-! ### C2 — fail-safe retention on fetch failure -/

/-- C2: for every prior alert state, a failed bulletin fetch leaves `level`
and `affectedMetroIds` exactly as they were, increments
`consecutiveErrors` by exactly 1, and returns `changed = false` and
`error = true`; in particular an ACTIVE state with affected set `[1, 2]`
is still ACTIVE with `[1, 2]` after the failed check. -/
theorem C2_fetch_failure_preserves_state (prev : AlertState) (alerts : List Alert)
    (now : String) :
    (updateAlertState prev alerts true now).state.level = prev.level ∧
    (updateAlertState prev alerts true now).state.affectedMetroIds = prev.affectedMetroIds ∧
    (updateAlertState prev alerts true now).state.consecutiveErrors =
      prev.consecutiveErrors + 1 ∧
    (updateAlertState prev alerts true now).changed = false ∧
    (updateAlertState prev alerts true now).error = true ∧
    (updateAlertState ⟨.ACTIVE, [1, 2], [], none, 0, none⟩ alerts true now).state.level =
      .ACTIVE ∧
    (updateAlertState ⟨.ACTIVE, [1, 2], [], none, 0, none⟩ alerts true now).state.affectedMetroIds =
      [1, 2] :=
  ⟨rfl, rfl, rfl, rfl, rfl, rfl, rfl⟩

/-! ### C3 — realtime short-circuit below the threshold -/

/-- C3: whenever the resolved realtime value is at most
`REALTIME_THRESHOLD` (20 mm), `checkAlarmCondition` persists a forecast
record with value 0, makes no forecast call (`forecastCalled = false`,
and the result does not depend on the forecast provider at all), and
returns `alarm = false`. -/
theorem C3_short_circuit (awsRn15 preloadedRealtime : Option ℚ) (fetchedRN1 : ℚ)
    (nx ny : Int) (prevRN1 : Option ℚ) (forecastCache : List ((Int × Int) × ℚ))
    (oracle oracle' : Int → Int → ℚ)
    (h : resolveRealtime awsRn15 preloadedRealtime fetchedRN1 prevRN1 ≤ REALTIME_THRESHOLD) :
    (checkAlarmCondition awsRn15 preloadedRealtime fetchedRN1 nx ny prevRN1
        forecastCache oracle).forecastInsert = 0 ∧
    (checkAlarmCondition awsRn15 preloadedRealtime fetchedRN1 nx ny prevRN1
        forecastCache oracle).forecastCalled = false ∧
    (checkAlarmCondition awsRn15 preloadedRealtime fetchedRN1 nx ny prevRN1
        forecastCache oracle).alarm = false ∧
    checkAlarmCondition awsRn15 preloadedRealtime fetchedRN1 nx ny prevRN1
        forecastCache oracle =
      checkAlarmCondition awsRn15 preloadedRealtime fetchedRN1 nx ny prevRN1
        forecastCache oracle' := by
  unfold checkAlarmCondition
  simp only [if_pos h]
  exact ⟨trivial, trivial, trivial, trivial⟩

/-- Witness for C3 at a concrete input: an AWS-cache reading of 18 mm is
below the threshold and short-circuits. -/
theorem C3_short_circuit_witness :
    resolveRealtime (some 18) none 0 none ≤ REALTIME_THRESHOLD ∧
    ((checkAlarmCondition (some 18) none 0 60 127 none [] (fun _ _ => 60)).forecastInsert = 0 ∧
     (checkAlarmCondition (some 18) none 0 60 127 none [] (fun _ _ => 60)).forecastCalled = false ∧
     (checkAlarmCondition (some 18) none 0 60 127 none [] (fun _ _ => 60)).alarm = false ∧
     checkAlarmCondition (some 18) none 0 60 127 none [] (fun _ _ => 60) =
       checkAlarmCondition (some 18) none 0 60 127 none [] (fun _ _ => 0)) :=
  ⟨by decide, C3_short_circuit (some 18) none 0 60 127 none [] (fun _ _ => 60) (fun _ _ => 0)
    (by decide)⟩

/-! ### C7 — exponential error backoff -/

/-- C7: for every consecutive-error count of at least 1 the alert-check
retry delay is `min (ALERT_CHECK_ACTIVE * 2 ^ (n - 1)) ALERT_CHECK_IDLE`;
for `n = 2` it is exactly twice the active interval, and it never exceeds
the idle interval. -/
theorem C7_error_backoff (n : Nat) (_h : 1 ≤ n) :
    getErrorBackoff n = min (ALERT_CHECK_ACTIVE * 2 ^ (n - 1)) ALERT_CHECK_IDLE ∧
    getErrorBackoff 2 = 2 * ALERT_CHECK_ACTIVE ∧
    getErrorBackoff n ≤ ALERT_CHECK_IDLE :=
  ⟨rfl, by decide, min_le_right _ _⟩

/-- Witness for C7 at `n = 2`. -/
theorem C7_error_backoff_witness :
    1 ≤ 2 ∧
    (getErrorBackoff 2 = min (ALERT_CHECK_ACTIVE * 2 ^ (2 - 1)) ALERT_CHECK_IDLE ∧
     getErrorBackoff 2 = 2 * ALERT_CHECK_ACTIVE ∧
     getErrorBackoff 2 ≤ ALERT_CHECK_IDLE) :=
  ⟨by decide, C7_error_backoff 2 (by decide)⟩

/-! ### C5 — daily quota guard -/

/-- C5: starting from a fresh counter on day `today`, the first
`dailyLimit` calls all pass the guard and issue HTTP requests, leaving the
counter at exactly the number of calls made; the `(dailyLimit + 1)`-th call
on the same day throws before any HTTP request is issued; and on the first
call of a new provider-local day the counter is reset, so the call is
permitted again (the state after it records 1 call on the new day). -/
theorem C5_daily_quota (dailyLimit : Nat) (today newday : String) (s : GatewayState)
    (hday : s.apiCallDate ≠ newday) (hlim : 1 ≤ dailyLimit) :
    (∀ n, n ≤ dailyLimit →
      callsN ⟨0, today⟩ dailyLimit today n = ⟨n, today⟩) ∧
    (∀ n, n < dailyLimit →
      (callKmaApi ⟨n, today⟩ dailyLimit today).ok = true ∧
      (callKmaApi ⟨n, today⟩ dailyLimit today).httpIssued = true) ∧
    (callKmaApi (callsN ⟨0, today⟩ dailyLimit today dailyLimit) dailyLimit today).ok = false ∧
    (callKmaApi (callsN ⟨0, today⟩ dailyLimit today dailyLimit) dailyLimit
        today).httpIssued = false ∧
    (callKmaApi s dailyLimit newday).ok = true ∧
    (callKmaApi s dailyLimit newday).httpIssued = true ∧
    (callKmaApi s dailyLimit newday).state = ⟨1, newday⟩ := by
  have hsame : ∀ n : Nat, n < dailyLimit →
      callKmaApi ⟨n, today⟩ dailyLimit today = ⟨true, true, ⟨n + 1, today⟩⟩ := by
    intro n hn
    unfold callKmaApi
    simp [Nat.not_le.mpr hn]
  have hfix : ∀ n, n ≤ dailyLimit → callsN ⟨0, today⟩ dailyLimit today n = ⟨n, today⟩ := by
    intro n hn
    induction n with
    | zero => rfl
    | succ m ih =>
      have hm : m ≤ dailyLimit := Nat.le_of_succ_le hn
      have hmlt : m < dailyLimit := Nat.lt_of_succ_le hn
      show (callKmaApi (callsN ⟨0, today⟩ dailyLimit today m) dailyLimit today).state = _
      rw [ih hm, hsame m hmlt]
  have hover : callKmaApi ⟨dailyLimit, today⟩ dailyLimit today =
      ⟨false, false, ⟨dailyLimit, today⟩⟩ := by
    unfold callKmaApi
    simp
  have hnew : callKmaApi s dailyLimit newday = ⟨true, true, ⟨1, newday⟩⟩ := by
    unfold callKmaApi
    rw [if_pos hday]
    have hz : ¬ dailyLimit ≤ (0 : Nat) := by omega
    simp [hz]
  refine ⟨hfix, ?_, ?_, ?_, ?_, ?_, ?_⟩
  · intro n hn
    rw [hsame n hn]
    exact ⟨rfl, rfl⟩
  · rw [hfix dailyLimit le_rfl, hover]
  · rw [hfix dailyLimit le_rfl, hover]
  · rw [hnew]
  · rw [hnew]
  · rw [hnew]

/-- Witness for C5 at `dailyLimit = 3`: the fourth same-day call is
rejected without HTTP, and a date change re-permits calls. -/
theorem C5_daily_quota_witness :
    (GatewayState.mk 3 "2024-03-01").apiCallDate ≠ "2024-03-02" ∧ 1 ≤ 3 ∧
    ((callKmaApi (callsN ⟨0, "2024-03-01"⟩ 3 "2024-03-01" 3) 3 "2024-03-01").ok = false ∧
     (callKmaApi (callsN ⟨0, "2024-03-01"⟩ 3 "2024-03-01" 3) 3 "2024-03-01").httpIssued = false ∧
     (callKmaApi ⟨3, "2024-03-01"⟩ 3 "2024-03-02").ok = true ∧
     (callKmaApi ⟨3, "2024-03-01"⟩ 3 "2024-03-02").state = ⟨1, "2024-03-02"⟩) := by
  have h := C5_daily_quota 3 "2024-03-01" "2024-03-02" ⟨3, "2024-03-01"⟩
    (by decide) (by decide)
  exact ⟨by decide, by decide, h.2.2.1, h.2.2.2.1, h.2.2.2.2.1, h.2.2.2.2.2.2⟩

/-! ### C4 — precipitation-type zero override -/

/-- A VSRT grid payload whose header has no PTY column: the RN1 value for
cell (60, 127) is 5.0 mm and the stored precipitation type is the
explicit "absent" sentinel `-1`. -/
def vsrtDemoText : String :=
  "# TM_FC TM_EF NX NY RN1\n202403011020 2024030111 60 127 5.0"

/-- C4 counterexample: in the grid path of `getVsrtForecastHourly` an
*absent* PTY indicator does **not** force the resolved value to 0 — the
cell parsed from `vsrtDemoText` has no PTY value (sentinel `-1`), yet the
resolved forecast is 5, not 0.  This refutes the claim as stated for the
forecast accessor `getVsrtForecastHourly`. -/
theorem C4_absent_pty_not_zero :
    (alookup (60, 127) (parseVsrtGridText vsrtDemoText)).map VsrtVal.pty =
      some (some (-1)) ∧
    vsrtResolve (parseVsrtGridText vsrtDemoText) 60 127 = 5 ∧
    vsrtResolve (parseVsrtGridText vsrtDemoText) 60 127 ≠ 0 := by
  refine ⟨by decide, by decide, by decide⟩

/-- C4 as amended: a PTY indicator equal to 0 *or absent* forces the
resolved value to 0 in `getAWSRealtime15min` and in `getForecast45min`;
in the grid path of `getVsrtForecastHourly` only `PTY === 0` (or a wholly
missing grid cell) forces 0 — an absent PTY column there stores the
sentinel `-1` and lets the RN1 accumulation through. -/
theorem C4_pty_zero_override :
    (∀ items : List NcstItem,
      items.find? (fun i => i.category = "PTY") = none → ncstResolve items = 0) ∧
    (∀ (items : List NcstItem) (it : NcstItem),
      items.find? (fun i => i.category = "PTY") = some it →
      jsParseIntDefault0 it.obsrValue = some 0 → ncstResolve items = 0) ∧
    (∀ (items : List FcstItem) (firstRn1 : FcstItem) (rest : List FcstItem),
      items.filter (fun i => i.category = "RN1") = firstRn1 :: rest →
      (items.filter (fun i => i.category = "PTY")).find?
          (fun p => p.fcstDate = firstRn1.fcstDate ∧ p.fcstTime = firstRn1.fcstTime) = none →
      fcstResolve items = 0) ∧
    (∀ (items : List FcstItem) (firstRn1 : FcstItem) (rest : List FcstItem) (mp : FcstItem),
      items.filter (fun i => i.category = "RN1") = firstRn1 :: rest →
      (items.filter (fun i => i.category = "PTY")).find?
          (fun p => p.fcstDate = firstRn1.fcstDate ∧ p.fcstTime = firstRn1.fcstTime) = some mp →
      jsParseIntDefault0 mp.fcstValue = some 0 → fcstResolve items = 0) ∧
    (∀ (text : String) (nx ny : Int) (v : VsrtVal),
      alookup (nx, ny) (parseVsrtGridText text) = some v → v.pty = some 0 →
      vsrtResolve (parseVsrtGridText text) nx ny = 0) ∧
    (∀ (text : String) (nx ny : Int),
      alookup (nx, ny) (parseVsrtGridText text) = none →
      vsrtResolve (parseVsrtGridText text) nx ny = 0) := by
  refine ⟨?_, ?_, ?_, ?_, ?_, ?_⟩
  · intro items hf
    simp [ncstResolve, hf]
  · intro items it hf hz
    simp [ncstResolve, hf, hz]
  · intro items firstRn1 rest hrn hf
    simp only [fcstResolve, hrn]
    simp only [hf]
  · intro items firstRn1 rest mp hrn hf hz
    simp only [fcstResolve, hrn]
    simp only [hf]
    simp [hz]
  · intro text nx ny v hl hp
    simp only [vsrtResolve, hl]
    simp [hp]
  · intro text nx ny hl
    simp only [vsrtResolve, hl]

/-- Witness for C4 (amended) at concrete payloads: an observation with
PTY 0 and residual RN1 3.5 resolves to 0, and a VSRT cell with PTY 0
resolves to 0. -/
theorem C4_pty_zero_override_witness :
    ncstResolve [⟨"PTY", some "0"⟩, ⟨"RN1", some "3.5"⟩] = 0 ∧
    vsrtResolve (parseVsrtGridText
      "# TM_FC TM_EF NX NY RN1 PTY\n202403011020 2024030111 60 127 5.0 0") 60 127 = 0 :=
  ⟨C4_pty_zero_override.2.1 [⟨"PTY", some "0"⟩, ⟨"RN1", some "3.5"⟩] ⟨"PTY", some "0"⟩
      (by decide) (by decide),
   C4_pty_zero_override.2.2.2.2.1
      "# TM_FC TM_EF NX NY RN1 PTY\n202403011020 2024030111 60 127 5.0 0" 60 127
      ⟨5, some 0⟩ (by decide) (by decide)⟩

/-! ### C10 — non-negativity of the data accessors -/

/-- The nonnegativity invariant of the VSRT grid: every stored cell has a
clamped, nonnegative RN1. -/
theorem vsrtFold_rn1_nonneg (lines : List String) (st : VsrtCols × List ((Int × Int) × VsrtVal))
    (h : ∀ p ∈ st.2, 0 ≤ p.2.rn1) :
    ∀ p ∈ (lines.foldl vsrtLineStep st).2, 0 ≤ p.2.rn1 := by
  induction lines generalizing st with
  | nil => exact h
  | cons line rest ih =>
    refine ih (vsrtLineStep st line) ?_
    intro p hp
    simp only [vsrtLineStep] at hp
    split at hp
    · exact h p hp
    · split at hp
      · exact h p hp
      · split at hp
        · exact h p hp
        · split at hp
          · rcases mem_aset hp with hnew | hold
            · subst hnew
              dsimp only
              split
              · exact le_refl 0
              · exact le_of_not_lt (by assumption)
            · exact h _ hold
          · exact h p hp

/-- The `getUltraSrtFcst` payload that escapes the sentinel filter: a
`-999` missing-data RN1 forecast accompanied by PTY 1 (rain). -/
def fcstDemoItems : List FcstItem :=
  [⟨"RN1", some "-999", "20240301", "1100"⟩,
   ⟨"PTY", some "1", "20240301", "1100"⟩]

/-- C10: the observation accessor (`getAWSRealtime15min`) and the VSRT
grid path of `getVsrtForecastHourly` indeed never produce a negative value
(their payload processing filters or clamps negative sentinels, and every
other return path is a literal 0); but `getForecast45min` has no negative
filter: on `fcstDemoItems` it returns `-999`, so the claim that no caller
can ever observe a negative forecast value is violated — a code bug, since
the sibling paths filter `-999` explicitly (`kmaAPI.js` lines 234, 548)
and the spec requires missing data to resolve to 0. -/
theorem C10_accessor_nonnegativity :
    (∀ items : List NcstItem, 0 ≤ ncstResolve items) ∧
    (∀ (text : String) (nx ny : Int), 0 ≤ vsrtResolve (parseVsrtGridText text) nx ny) ∧
    fcstResolve fcstDemoItems = -999 ∧
    fcstResolve fcstDemoItems < 0 := by
  refine ⟨?_, ?_, by decide, by decide⟩
  · intro items
    unfold ncstResolve
    split
    · exact le_refl 0
    · split
      · exact le_refl 0
      · split
        · exact le_refl 0
        · split
          · exact le_refl 0
          · split
            · exact le_refl 0
            · dsimp only
              split
              · exact le_refl 0
              · exact roundTenth_nonneg (le_of_not_lt (by assumption))
  · intro text nx ny
    unfold vsrtResolve
    rcases hl : alookup (nx, ny) (parseVsrtGridText text) with _ | v
    · exact le_refl 0
    · have hv : ((nx, ny), v) ∈ parseVsrtGridText text := alookup_some_mem hl
      have hr : 0 ≤ v.rn1 := by
        have hbase : ∀ p ∈ (VsrtCols.mk (-1) (-1) (-1) (-1),
            ([] : List ((Int × Int) × VsrtVal))).2, 0 ≤ p.2.rn1 := by
          intro p hp
          simp at hp
        exact vsrtFold_rn1_nonneg _ _ hbase _ hv
      show 0 ≤ if v.pty = some 0 then (0 : ℚ) else roundTenth v.rn1
      by_cases hp : v.pty = some 0
      · rw [if_pos hp]
      · rw [if_neg hp]
        exact roundTenth_nonneg hr

/-! ### C9 — delta fallback against the grid baseline -/

/-- C9: when the AWS direct-measurement cache misses, the resolved
realtime value is the delta against the cell's baseline: it equals
`max 0 (currentRN1 - baseline)` (stated for tenth-of-a-millimetre values,
which is what both the current RN1 and the stored baseline always are,
being `toFixed(1)` outputs of the upstream accessors); it is 0 whenever no
baseline exists; it is never negative; and with no baseline the evaluation
can never raise an alarm (nor even call the forecast provider). -/
theorem C9_delta_fallback (preloadedRealtime : Option ℚ) (fetchedRN1 : ℚ)
    (nx ny : Int) (prevRN1 : Option ℚ) (forecastCache : List ((Int × Int) × ℚ))
    (oracle : Int → Int → ℚ) :
    (∀ b : ℚ, prevRN1 = some b →
      (∃ m : ℤ, preloadedRealtime.getD fetchedRN1 = (m : ℚ) / 10) →
      (∃ k : ℤ, b = (k : ℚ) / 10) →
      resolveRealtime none preloadedRealtime fetchedRN1 prevRN1 =
        max 0 (preloadedRealtime.getD fetchedRN1 - b)) ∧
    (prevRN1 = none → resolveRealtime none preloadedRealtime fetchedRN1 prevRN1 = 0) ∧
    0 ≤ resolveRealtime none preloadedRealtime fetchedRN1 prevRN1 ∧
    (prevRN1 = none →
      (checkAlarmCondition none preloadedRealtime fetchedRN1 nx ny prevRN1
          forecastCache oracle).alarm = false ∧
      (checkAlarmCondition none preloadedRealtime fetchedRN1 nx ny prevRN1
          forecastCache oracle).forecastCalled = false) := by
  refine ⟨?_, ?_, ?_, ?_⟩
  · rintro b rfl ⟨m, hm⟩ ⟨k, hk⟩
    show (if b ≤ preloadedRealtime.getD fetchedRN1 then
        roundTenth (qsub (preloadedRealtime.getD fetchedRN1) b) else 0) =
      max 0 (preloadedRealtime.getD fetchedRN1 - b)
    rw [qsub_eq_sub, hm, hk]
    by_cases hle : (k : ℚ) / 10 ≤ (m : ℚ) / 10
    · rw [if_pos hle]
      have hsub : (m : ℚ) / 10 - (k : ℚ) / 10 = ((m - k : ℤ) : ℚ) / 10 := by
        push_cast
        ring
      rw [hsub, roundTenth_tenths, ← hsub, max_eq_right (by linarith)]
    · rw [if_neg hle]
      rw [max_eq_left (by linarith [lt_of_not_le hle])]
  · rintro rfl
    rfl
  · rcases prevRN1 with _ | p
    · exact le_refl 0
    · show 0 ≤ if p ≤ preloadedRealtime.getD fetchedRN1 then
          roundTenth (qsub (preloadedRealtime.getD fetchedRN1) p) else 0
      by_cases hle : p ≤ preloadedRealtime.getD fetchedRN1
      · rw [if_pos hle]
        refine roundTenth_nonneg ?_
        rw [qsub_eq_sub]
        linarith
      · rw [if_neg hle]
  · rintro rfl
    have h : resolveRealtime none preloadedRealtime fetchedRN1 none ≤ REALTIME_THRESHOLD := by
      rw [show resolveRealtime none preloadedRealtime fetchedRN1 none = 0 from rfl]
      norm_num [REALTIME_THRESHOLD]
    unfold checkAlarmCondition
    simp only [if_pos h]
    exact ⟨trivial, trivial⟩

/-- Witness for C9 at concrete tenth-valued inputs: current RN1 2.5 mm,
baseline 1.3 mm gives a delta of 1.2 mm; and with no baseline the resolved
value is 0 and no alarm fires. -/
theorem C9_delta_fallback_witness :
    (some (13 / 10 : ℚ) = some (13 / 10 : ℚ)) ∧
    resolveRealtime none (some (25 / 10)) 0 (some (13 / 10)) =
      max 0 ((Option.getD (some (25 / 10 : ℚ)) 0) - 13 / 10) ∧
    resolveRealtime none none 0 none = 0 ∧
    (checkAlarmCondition none none 0 60 127 none [] (fun _ _ => 60)).alarm = false :=
  ⟨rfl,
   (C9_delta_fallback (some (25 / 10)) 0 60 127 (some (13 / 10)) [] (fun _ _ => 60)).1
     (13 / 10) rfl ⟨25, by norm_num⟩ ⟨13, by norm_num⟩,
   (C9_delta_fallback none 0 60 127 none [] (fun _ _ => 60)).2.1 rfl,
   ((C9_delta_fallback none 0 60 127 none [] (fun _ _ => 60)).2.2.2 rfl).1⟩

/-! ### C8 — successful update: IDLE/ACTIVE transition and the sorted union -/

theorem setAdd_mem (acc : List Nat) (x id : Nat) :
    id ∈ setAdd acc x ↔ id ∈ acc ∨ id = x := by
  unfold setAdd
  by_cases h : x ∈ acc
  · rw [if_pos h]
    constructor
    · exact Or.inl
    · rintro (h1 | rfl)
      · exact h1
      · exact h
  · rw [if_neg h]
    simp

theorem setAdd_nodup {acc : List Nat} {x : Nat} (h : acc.Nodup) : (setAdd acc x).Nodup := by
  unfold setAdd
  by_cases hx : x ∈ acc
  · rw [if_pos hx]
    exact h
  · rw [if_neg hx]
    refine List.Nodup.append h (List.nodup_singleton x) ?_
    intro a ha hax
    rw [List.mem_singleton] at hax
    subst hax
    exact hx ha

theorem foldl_setAdd_mem (ids : List Nat) (acc : List Nat) (id : Nat) :
    id ∈ ids.foldl setAdd acc ↔ id ∈ acc ∨ id ∈ ids := by
  induction ids generalizing acc with
  | nil => simp
  | cons x rest ih =>
    simp only [List.foldl_cons, ih, setAdd_mem, List.mem_cons]
    tauto

theorem foldl_setAdd_nodup (ids : List Nat) (acc : List Nat) (h : acc.Nodup) :
    (ids.foldl setAdd acc).Nodup := by
  induction ids generalizing acc with
  | nil => exact h
  | cons x rest ih => exact ih _ (setAdd_nodup h)

theorem collect_go_mem (alerts : List Alert) (acc : List Nat) (id : Nat) :
    id ∈ alerts.foldl (fun acc a => (resolveRegionsToMetroIds a.regions).foldl setAdd acc) acc ↔
      id ∈ acc ∨ ∃ a, a ∈ alerts ∧ id ∈ resolveRegionsToMetroIds a.regions := by
  induction alerts generalizing acc with
  | nil => simp
  | cons a0 rest ih =>
    simp only [List.foldl_cons, ih, foldl_setAdd_mem, List.mem_cons]
    constructor
    · rintro ((h | h) | ⟨a, ha, hid⟩)
      · exact Or.inl h
      · exact Or.inr ⟨a0, Or.inl rfl, h⟩
      · exact Or.inr ⟨a, Or.inr ha, hid⟩
    · rintro (h | ⟨a, (rfl | ha), hid⟩)
      · exact Or.inl (Or.inl h)
      · exact Or.inl (Or.inr hid)
      · exact Or.inr ⟨a, ha, hid⟩

theorem collectMetroIds_mem (alerts : List Alert) (id : Nat) :
    id ∈ collectMetroIds alerts ↔
      ∃ a, a ∈ alerts ∧ id ∈ resolveRegionsToMetroIds a.regions := by
  unfold collectMetroIds
  rw [collect_go_mem]
  simp

theorem collectMetroIds_nodup (alerts : List Alert) : (collectMetroIds alerts).Nodup := by
  unfold collectMetroIds
  generalize hacc : ([] : List Nat) = acc
  have hnd : acc.Nodup := hacc ▸ List.nodup_nil
  clear hacc
  induction alerts generalizing acc with
  | nil => exact hnd
  | cons a0 rest ih => exact ih _ (foldl_setAdd_nodup _ _ hnd)

/-- C8: on a successful fetch `updateAlertState` resets the error counter;
with no qualifying alerts it moves to IDLE with an empty affected set;
with alerts it moves to ACTIVE and `affectedMetroIds` is exactly the
duplicate-free ascending-sorted union of the resolved metro ids of all
alerts; `changed` is true exactly when the level flipped, so a
region-set-only change while remaining ACTIVE reports `changed = false`
while still updating the affected set. -/
theorem C8_success_update (prev : AlertState) (alerts : List Alert) (now : String) :
    (updateAlertState prev alerts false now).state.consecutiveErrors = 0 ∧
    (updateAlertState prev alerts false now).error = false ∧
    (alerts = [] →
      (updateAlertState prev alerts false now).state.level = .IDLE ∧
      (updateAlertState prev alerts false now).state.affectedMetroIds = []) ∧
    (alerts ≠ [] →
      (updateAlertState prev alerts false now).state.level = .ACTIVE ∧
      List.Sorted (· ≤ ·) (updateAlertState prev alerts false now).state.affectedMetroIds ∧
      (updateAlertState prev alerts false now).state.affectedMetroIds.Nodup ∧
      (∀ id : Nat,
        id ∈ (updateAlertState prev alerts false now).state.affectedMetroIds ↔
          ∃ a, a ∈ alerts ∧ id ∈ resolveRegionsToMetroIds a.regions)) ∧
    ((updateAlertState prev alerts false now).changed = true ↔
      prev.level ≠ (updateAlertState prev alerts false now).state.level) ∧
    (prev.level = .ACTIVE → alerts ≠ [] →
      (updateAlertState prev alerts false now).changed = false) := by
  rcases alerts with _ | ⟨a0, rest⟩
  · refine ⟨rfl, rfl, fun _ => ⟨rfl, rfl⟩, fun hne => absurd rfl hne, ?_, ?_⟩
    · show decide (prev.level ≠ AlertLevel.IDLE) = true ↔ _
      exact decide_eq_true_iff
    · intro _ hne
      exact absurd rfl hne
  · have hsort : List.Sorted (· ≤ ·)
        ((collectMetroIds (a0 :: rest)).insertionSort (· ≤ ·)) :=
      List.sorted_insertionSort _ _
    have hperm := List.perm_insertionSort (· ≤ ·) (collectMetroIds (a0 :: rest))
    refine ⟨rfl, rfl, fun he => absurd he (by simp), fun _ => ⟨rfl, hsort, ?_, ?_⟩, ?_, ?_⟩
    · exact hperm.nodup_iff.mpr (collectMetroIds_nodup _)
    · intro id
      rw [show (updateAlertState prev (a0 :: rest) false now).state.affectedMetroIds =
          (collectMetroIds (a0 :: rest)).insertionSort (· ≤ ·) from rfl]
      rw [hperm.mem_iff, collectMetroIds_mem]
    · show decide (prev.level ≠ AlertLevel.ACTIVE) = true ↔ _
      exact decide_eq_true_iff
    · intro hprev _
      show decide (prev.level ≠ AlertLevel.ACTIVE) = false
      rw [hprev]
      simp

/-- Witness for C8: a region-set-only change while ACTIVE — previous state
ACTIVE with affected `[3]`, one alert naming Seoul and Busan — yields
`changed = false`, ACTIVE, reset error counter, and the sorted union
`[1, 2]`. -/
theorem C8_success_update_witness :
    ([(⟨"호우", "주의보", ["부산광역시", "서울특별시"], "r"⟩ : Alert)] ≠ []) ∧
    (updateAlertState ⟨.ACTIVE, [3], [], none, 2, none⟩
      [⟨"호우", "주의보", ["부산광역시", "서울특별시"], "r"⟩] false "T").state.consecutiveErrors = 0 ∧
    (updateAlertState ⟨.ACTIVE, [3], [], none, 2, none⟩
      [⟨"호우", "주의보", ["부산광역시", "서울특별시"], "r"⟩] false "T").state.level = .ACTIVE ∧
    (updateAlertState ⟨.ACTIVE, [3], [], none, 2, none⟩
      [⟨"호우", "주의보", ["부산광역시", "서울특별시"], "r"⟩] false "T").changed = false ∧
    (updateAlertState ⟨.ACTIVE, [3], [], none, 2, none⟩
      [⟨"호우", "주의보", ["부산광역시", "서울특별시"], "r"⟩] false "T").state.affectedMetroIds = [1, 2] := by
  have h := C8_success_update ⟨.ACTIVE, [3], [], none, 2, none⟩
    [⟨"호우", "주의보", ["부산광역시", "서울특별시"], "r"⟩] "T"
  exact ⟨by decide, h.1,
    (h.2.2.2.1 (by decide)).1,
    h.2.2.2.2.2 rfl (by decide),
    by decide⟩

/-! ### C1 — per-authority latest-bulletin selection -/

theorem jsGtOpt_irrefl (a : Option Int) : jsGtOpt a a = false := by
  cases a <;> simp [jsGtOpt]

theorem jsGtOpt_true_iff (a : Option Int) (v : Int) :
    jsGtOpt a (some v) = true ↔ ∃ u, a = some u ∧ v < u := by
  cases a <;> simp [jsGtOpt]

theorem jsGtOpt_false_mono {a : Option Int} {v w : Int} (h : jsGtOpt a (some v) = false)
    (hvw : v ≤ w) : jsGtOpt a (some w) = false := by
  cases a with
  | none => rfl
  | some u =>
    simp only [jsGtOpt, decide_eq_false_iff_not, not_lt] at h ⊢
    omega

theorem alookup_none_keys {κ ν : Type} [DecidableEq κ] {k : κ} {l : List (κ × ν)}
    (h : alookup k l = none) : k ∉ l.map Prod.fst := by
  intro hk
  rcases List.mem_map.mp hk with ⟨⟨k', v⟩, hm, he⟩
  cases he
  exact (alookup_eq_none _ _).mp h v hm

theorem mem_keys_exists {κ ν : Type} [DecidableEq κ] {k : κ} {l : List (κ × ν)}
    (h : k ∈ l.map Prod.fst) : ∃ v, (k, v) ∈ l := by
  rcases List.mem_map.mp h with ⟨⟨k', v⟩, hm, he⟩
  cases he
  exact ⟨v, hm⟩

/-- The loop invariant of the `latestByStn` grouping fold: keys are unique;
every stored bulletin was seen, carries its own authority key, has a
positive parsed issue time, and no seen bulletin of the same authority has
a strictly greater issue time; and every seen bulletin with a positive
issue time has its authority represented. -/
def latestInv (seen : List WrnItem) (acc : List (String × WrnItem)) : Prop :=
  ((acc.map Prod.fst).Nodup) ∧
  (∀ k b, (k, b) ∈ acc → b ∈ seen ∧ stnKey b = k ∧
      (∃ v, tmFcNum b = some v ∧ 0 < v) ∧
      ∀ it, it ∈ seen → stnKey it = k → jsGtOpt (tmFcNum it) (tmFcNum b) = false) ∧
  (∀ it, it ∈ seen → jsGtOpt (tmFcNum it) (some 0) = true →
      stnKey it ∈ acc.map Prod.fst)

theorem upsertLatest_inv {seen : List WrnItem} {acc : List (String × WrnItem)} (it : WrnItem)
    (h : latestInv seen acc) : latestInv (seen ++ [it]) (upsertLatest acc it) := by
  obtain ⟨hnd, hent, hrep⟩ := h
  unfold upsertLatest
  rcases halo : alookup (stnKey it) acc with _ | prev
  · cases hgt : jsGtOpt (tmFcNum it) (some 0) with
    | false =>
      show latestInv (seen ++ [it]) acc
      refine ⟨hnd, ?_, ?_⟩
      · intro k b hkb
        obtain ⟨hbseen, hbkey, hbpos, hbmax⟩ := hent k b hkb
        refine ⟨List.mem_append_left _ hbseen, hbkey, hbpos, ?_⟩
        intro i hi hikey
        rcases List.mem_append.mp hi with hi | hi
        · exact hbmax i hi hikey
        · rw [List.mem_singleton] at hi
          subst hi
          exfalso
          have h0 : alookup k acc = none := by
            rw [← hikey]
            exact halo
          exact (alookup_eq_none _ _).mp h0 b hkb
      · intro i hi hipos
        rcases List.mem_append.mp hi with hi | hi
        · exact hrep i hi hipos
        · rw [List.mem_singleton] at hi
          subst hi
          rw [hgt] at hipos
          cases hipos
    | true =>
      show latestInv (seen ++ [it]) (acc ++ [(stnKey it, it)])
      have hknot : stnKey it ∉ acc.map Prod.fst := alookup_none_keys halo
      obtain ⟨v0, hv0, hv0pos⟩ := (jsGtOpt_true_iff _ _).mp hgt
      refine ⟨?_, ?_, ?_⟩
      · rw [List.map_append, List.map_singleton]
        refine List.Nodup.append hnd (List.nodup_singleton _) ?_
        intro a ha hax
        rw [List.mem_singleton] at hax
        subst hax
        exact hknot ha
      · intro k b hkb
        rcases List.mem_append.mp hkb with hkbL | hkbR
        · obtain ⟨hbseen, hbkey, hbpos, hbmax⟩ := hent k b hkbL
          refine ⟨List.mem_append_left _ hbseen, hbkey, hbpos, ?_⟩
          intro i hi hikey
          rcases List.mem_append.mp hi with hi | hi
          · exact hbmax i hi hikey
          · rw [List.mem_singleton] at hi
            subst hi
            exfalso
            have h0 : alookup k acc = none := by
              rw [← hikey]
              exact halo
            exact (alookup_eq_none _ _).mp h0 b hkbL
        · rw [List.mem_singleton] at hkbR
          cases hkbR
          refine ⟨List.mem_append_right _ (List.mem_singleton_self _), rfl,
            ⟨v0, hv0, hv0pos⟩, ?_⟩
          intro i hi hikey
          rcases List.mem_append.mp hi with hi | hi
          · have hnotrep : jsGtOpt (tmFcNum i) (some 0) = false := by
              cases hcase : jsGtOpt (tmFcNum i) (some 0) with
              | false => rfl
              | true =>
                exfalso
                have hkeymem := hrep i hi hcase
                rw [hikey] at hkeymem
                exact hknot hkeymem
            rw [hv0]
            exact jsGtOpt_false_mono hnotrep (le_of_lt hv0pos)
          · rw [List.mem_singleton] at hi
            subst hi
            exact jsGtOpt_irrefl _
      · intro i hi hipos
        rw [List.map_append, List.map_singleton]
        rcases List.mem_append.mp hi with hi | hi
        · exact List.mem_append_left _ (hrep i hi hipos)
        · rw [List.mem_singleton] at hi
          subst hi
          exact List.mem_append_right _ (List.mem_singleton_self _)
  · show latestInv (seen ++ [it])
        (if jsGtOpt (tmFcNum it) (tmFcNum prev) then
          aupdate (stnKey it) (fun _ => it) acc else acc)
    have hprevmem : (stnKey it, prev) ∈ acc := alookup_some_mem halo
    obtain ⟨hpseen, hpkey, ⟨vp, hvp, hvppos⟩, hpmax⟩ := hent _ _ hprevmem
    cases hgt : jsGtOpt (tmFcNum it) (tmFcNum prev) with
    | false =>
      show latestInv (seen ++ [it]) acc
      refine ⟨hnd, ?_, ?_⟩
      · intro k b hkb
        obtain ⟨hbseen, hbkey, hbpos, hbmax⟩ := hent k b hkb
        refine ⟨List.mem_append_left _ hbseen, hbkey, hbpos, ?_⟩
        intro i hi hikey
        rcases List.mem_append.mp hi with hi | hi
        · exact hbmax i hi hikey
        · rw [List.mem_singleton] at hi
          subst hi
          have hb : b = prev := by
            have h1 : alookup k acc = some b := mem_alookup hnd hkb
            rw [← hikey] at h1
            rw [halo] at h1
            exact (Option.some.inj h1).symm
          rw [hb]
          exact hgt
      · intro i hi hipos
        rcases List.mem_append.mp hi with hi | hi
        · exact hrep i hi hipos
        · rw [List.mem_singleton] at hi
          subst hi
          exact List.mem_map_of_mem Prod.fst hprevmem
    | true =>
      show latestInv (seen ++ [it]) (aupdate (stnKey it) (fun _ => it) acc)
      rw [hvp] at hgt
      obtain ⟨vi, hvi, hvigt⟩ := (jsGtOpt_true_iff _ _).mp hgt
      refine ⟨?_, ?_, ?_⟩
      · rw [aupdate_map_fst]
        exact hnd
      · intro k b hkb
        rcases mem_aupdate hnd hkb with ⟨hold, hne⟩ | ⟨hkeq, v, hvmem, hbv⟩
        · obtain ⟨hbseen, hbkey, hbpos, hbmax⟩ := hent k b hold
          refine ⟨List.mem_append_left _ hbseen, hbkey, hbpos, ?_⟩
          intro i hi hikey
          rcases List.mem_append.mp hi with hi | hi
          · exact hbmax i hi hikey
          · rw [List.mem_singleton] at hi
            subst hi
            exact absurd hikey.symm hne
        · subst hkeq
          have hbit : b = it := hbv
          subst hbit
          refine ⟨List.mem_append_right _ (List.mem_singleton_self _), rfl,
            ⟨vi, hvi, lt_trans hvppos hvigt⟩, ?_⟩
          intro i hi hikey
          rcases List.mem_append.mp hi with hi | hi
          · have hmax0 := hpmax i hi hikey
            rw [hvp] at hmax0
            rw [hvi]
            exact jsGtOpt_false_mono hmax0 (le_of_lt hvigt)
          · rw [List.mem_singleton] at hi
            subst hi
            exact jsGtOpt_irrefl _
      · intro i hi hipos
        rw [aupdate_map_fst]
        rcases List.mem_append.mp hi with hi | hi
        · exact hrep i hi hipos
        · rw [List.mem_singleton] at hi
          subst hi
          exact List.mem_map_of_mem Prod.fst hprevmem

theorem foldl_upsert_inv (items : List WrnItem) :
    ∀ (seen : List WrnItem) (acc : List (String × WrnItem)), latestInv seen acc →
      latestInv (seen ++ items) (items.foldl upsertLatest acc) := by
  induction items with
  | nil =>
    intro seen acc h
    simpa using h
  | cons it rest ih =>
    intro seen acc h
    rw [List.append_cons]
    exact ih (seen ++ [it]) (upsertLatest acc it) (upsertLatest_inv it h)

theorem latestByStn_inv (items : List WrnItem) : latestInv items (latestByStn items) := by
  have h0 : latestInv [] [] := by
    refine ⟨List.nodup_nil, ?_, ?_⟩
    · intro k b hkb
      cases hkb
    · intro i hi
      cases hi
  have h := foldl_upsert_inv items [] [] h0
  simpa using h

/-- Demo bulletin: the Seoul authority's morning rain advisory. -/
def demoSeoulMorning : WrnItem :=
  ⟨some "108", some "202403010900", some "호우주의보 : 서울특별시"⟩

/-- Demo bulletin: the Seoul authority's afternoon cancellation notice
(no rain-alert line). -/
def demoSeoulCancel : WrnItem :=
  ⟨some "108", some "202403011500", some "특보해제"⟩

/-- Demo bulletin: the Busan authority's still-active rain advisory. -/
def demoBusanWarning : WrnItem :=
  ⟨some "159", some "202403011000", some "호우주의보 : 부산광역시"⟩

def demoItems : List WrnItem := [demoSeoulMorning, demoSeoulCancel, demoBusanWarning]

def demoBusanAlert : Alert := ⟨"호우", "주의보", ["부산광역시"], "호우주의보 : 부산광역시"⟩

def demoSeoulAlert : Alert := ⟨"호우", "주의보", ["서울특별시"], "호우주의보 : 서울특별시"⟩

/-- C1: `fetchWeatherAlerts` selects, per issuing authority (`stnId`), only
that authority's bulletin with the greatest issue time (`tmFc`) — every
selected bulletin is one of the fetched items, carries its authority's
key, and no item of the same authority has a strictly greater issue time;
every authority with a positively-timestamped item is represented — and
the active alert set is exactly the union of the alerts parsed from those
per-authority-latest bulletins.  On the demo items the result differs from
both rejected policies: the globally-latest policy (Seoul's afternoon
cancellation masks Busan's active warning) and the union-of-all policy
(which would keep Seoul's already-cancelled morning warning active). -/
theorem C1_per_authority_latest (items : List WrnItem) :
    (∀ k b, (k, b) ∈ latestByStn items →
      b ∈ items ∧ stnKey b = k ∧
      ∀ it, it ∈ items → stnKey it = k → jsGtOpt (tmFcNum it) (tmFcNum b) = false) ∧
    (∀ it, it ∈ items → jsGtOpt (tmFcNum it) (some 0) = true →
      ∃ b, (stnKey it, b) ∈ latestByStn items) ∧
    (∀ a, a ∈ fetchWeatherAlerts items ↔
      ∃ k b, (k, b) ∈ latestByStn items ∧ a ∈ bulletinAlerts b) ∧
    (demoBusanAlert ∈ fetchWeatherAlerts demoItems ∧
     demoBusanAlert ∉ specGlobalLatestAlerts demoItems ∧
     demoSeoulAlert ∈ specUnionAllAlerts demoItems ∧
     demoSeoulAlert ∉ fetchWeatherAlerts demoItems) := by
  obtain ⟨hnd, hent, hrep⟩ := latestByStn_inv items
  refine ⟨?_, ?_, ?_, by decide, by decide, by decide, by decide⟩
  · intro k b hkb
    obtain ⟨hbseen, hbkey, _, hbmax⟩ := hent k b hkb
    exact ⟨hbseen, hbkey, hbmax⟩
  · intro it hit hpos
    exact mem_keys_exists (hrep it hit hpos)
  · intro a
    unfold fetchWeatherAlerts
    rw [List.mem_join]
    constructor
    · rintro ⟨l, hl, hal⟩
      rcases List.mem_map.mp hl with ⟨⟨k, b⟩, hkb, rfl⟩
      exact ⟨k, b, hkb, hal⟩
    · rintro ⟨k, b, hkb, hab⟩
      exact ⟨bulletinAlerts b, List.mem_map_of_mem _ hkb, hab⟩

/-- Witness for C1 at the demo items: Busan's bulletin is retained as its
authority's latest and its alert is in the active set. -/
theorem C1_per_authority_latest_witness :
    demoBusanWarning ∈ demoItems ∧ stnKey demoBusanWarning = "159" ∧
    demoBusanAlert ∈ fetchWeatherAlerts demoItems :=
  ⟨((C1_per_authority_latest demoItems).1 "159" demoBusanWarning (by decide)).1,
   ((C1_per_authority_latest demoItems).1 "159" demoBusanWarning (by decide)).2.1,
   (C1_per_authority_latest demoItems).2.2.2.1⟩

/-! ### C6 — one realtime fetch per grid cell, fanned out to every station -/

theorem mem_aupdate_self {κ ν : Type} [DecidableEq κ] {k : κ} {v : ν} (f : ν → ν)
    {l : List (κ × ν)} (hnd : (l.map Prod.fst).Nodup) (h : (k, v) ∈ l) :
    (k, f v) ∈ aupdate k f l := by
  induction l with
  | nil => cases h
  | cons p rest ih =>
    obtain ⟨k0, v0⟩ := p
    simp only [List.map_cons, List.nodup_cons] at hnd
    rcases List.mem_cons.mp h with h1 | h1
    · cases h1
      show (k, f v) ∈ if k = k then (k, f v) :: rest else (k, v) :: aupdate k f rest
      rw [if_pos rfl]
      exact List.mem_cons_self _ _
    · by_cases hk : k0 = k
      · subst hk
        exact absurd (List.mem_map_of_mem Prod.fst h1) hnd.1
      · show (k, f v) ∈ if k0 = k then (k0, f v0) :: rest else (k0, v0) :: aupdate k f rest
        rw [if_neg hk]
        exact List.mem_cons_of_mem _ (ih hnd.2 h1)

theorem mem_aupdate_of_ne {κ ν : Type} [DecidableEq κ] {k k' : κ} {v' : ν} (f : ν → ν)
    {l : List (κ × ν)} (hne : k' ≠ k) (h : (k', v') ∈ l) : (k', v') ∈ aupdate k f l := by
  induction l with
  | nil => cases h
  | cons p rest ih =>
    obtain ⟨k0, v0⟩ := p
    rcases List.mem_cons.mp h with h1 | h1
    · cases h1
      show (k', v') ∈ if k' = k then (k', f v') :: rest else (k', v') :: aupdate k f rest
      rw [if_neg hne]
      exact List.mem_cons_self _ _
    · by_cases hk : k0 = k
      · subst hk
        show (k', v') ∈ if k0 = k0 then (k0, f v0) :: rest else (k0, v0) :: aupdate k0 f rest
        rw [if_pos rfl]
        exact List.mem_cons_of_mem _ h1
      · show (k', v') ∈ if k0 = k then (k0, f v0) :: rest else (k0, v0) :: aupdate k f rest
        rw [if_neg hk]
        exact List.mem_cons_of_mem _ (ih h1)

theorem CycleLog.append_assoc (a b c : CycleLog) :
    (a.append b).append c = a.append (b.append c) := by
  simp [CycleLog.append, List.append_assoc]

theorem CycleLog.empty_append (a : CycleLog) : emptyCycleLog.append a = a := by
  cases a
  simp [CycleLog.append, emptyCycleLog]

theorem CycleLog.append_empty (a : CycleLog) : a.append emptyCycleLog = a := by
  cases a
  simp [CycleLog.append, emptyCycleLog]

theorem processCells_go (fetch : Int × Int → Option ℚ)
    (cells : List ((Int × Int) × List PStation)) (init : CycleLog) :
    cells.foldl (fun log c => log.append (cellLog fetch c)) init
      = init.append (processCells fetch cells) := by
  induction cells generalizing init with
  | nil =>
    simp only [List.foldl_nil]
    rw [show processCells fetch [] = emptyCycleLog from rfl, CycleLog.append_empty]
  | cons c rest ih =>
    show List.foldl _ (init.append (cellLog fetch c)) rest = _
    rw [ih]
    have hR : processCells fetch (c :: rest)
        = (cellLog fetch c).append (processCells fetch rest) := by
      show List.foldl _ (emptyCycleLog.append (cellLog fetch c)) rest = _
      rw [ih, CycleLog.empty_append]
    rw [hR, CycleLog.append_assoc]

theorem processCells_cons (fetch : Int × Int → Option ℚ) (c : (Int × Int) × List PStation)
    (rest : List ((Int × Int) × List PStation)) :
    processCells fetch (c :: rest) = (cellLog fetch c).append (processCells fetch rest) := by
  show List.foldl _ (emptyCycleLog.append (cellLog fetch c)) rest = _
  rw [processCells_go, CycleLog.empty_append]

theorem processCells_append (fetch : Int × Int → Option ℚ)
    (l1 l2 : List ((Int × Int) × List PStation)) :
    processCells fetch (l1 ++ l2) = (processCells fetch l1).append (processCells fetch l2) := by
  unfold processCells
  rw [List.foldl_append, processCells_go]
  rfl

theorem chunk5_join {α : Type} (l : List α) : (chunk5 l).join = l := by
  induction l using chunk5.induct <;> simp_all [chunk5]

theorem processBatches_go (fetch : Int × Int → Option ℚ)
    (batches : List (List ((Int × Int) × List PStation))) (init : CycleLog) :
    batches.foldl (fun log batch => log.append (processCells fetch batch)) init
      = init.append (processCells fetch batches.join) := by
  induction batches generalizing init with
  | nil =>
    show init = init.append emptyCycleLog
    rw [CycleLog.append_empty]
  | cons b rest ih =>
    show List.foldl _ (init.append (processCells fetch b)) rest = _
    rw [ih, CycleLog.append_assoc]
    congr 1
    rw [← processCells_append]
    rfl

theorem processStations_eq (toGrid : ℚ → ℚ → Int × Int) (fetch : Int × Int → Option ℚ)
    (stations : List PStation) :
    processStations toGrid fetch stations
      = processCells fetch (gridGroups toGrid stations) := by
  unfold processStations
  rw [processBatches_go, chunk5_join, CycleLog.empty_append]

/-- The loop invariant of the `gridGroups` grouping fold: cell keys are
unique, every station stored under a cell projects to that cell, every
seen station is stored under its own cell, and every stored cell came from
some seen station. -/
def gridInv (toGrid : ℚ → ℚ → Int × Int) (seen : List PStation)
    (acc : List ((Int × Int) × List PStation)) : Prop :=
  (acc.map Prod.fst).Nodup ∧
  (∀ k g, (k, g) ∈ acc → ∀ s, s ∈ g → toGrid s.lat s.lon = k) ∧
  (∀ s, s ∈ seen → ∃ g, (toGrid s.lat s.lon, g) ∈ acc ∧ s ∈ g) ∧
  (∀ k g, (k, g) ∈ acc → ∃ s, s ∈ seen ∧ toGrid s.lat s.lon = k)

theorem addStation_inv {toGrid : ℚ → ℚ → Int × Int} {seen : List PStation}
    {acc : List ((Int × Int) × List PStation)} (s0 : PStation)
    (h : gridInv toGrid seen acc) :
    gridInv toGrid (seen ++ [s0]) (addStation toGrid acc s0) := by
  obtain ⟨hnd, hkey, hrep, hcov⟩ := h
  unfold addStation
  rcases halo : alookup (toGrid s0.lat s0.lon) acc with _ | g0
  · show gridInv toGrid (seen ++ [s0]) (acc ++ [(toGrid s0.lat s0.lon, [s0])])
    refine ⟨?_, ?_, ?_, ?_⟩
    · rw [List.map_append, List.map_singleton]
      refine List.Nodup.append hnd (List.nodup_singleton _) ?_
      intro a ha hax
      rw [List.mem_singleton] at hax
      subst hax
      exact alookup_none_keys halo ha
    · intro k g hkg
      rcases List.mem_append.mp hkg with hkg | hkg
      · exact hkey k g hkg
      · rw [List.mem_singleton] at hkg
        cases hkg
        intro s hs
        rw [List.mem_singleton] at hs
        subst hs
        rfl
    · intro s hs
      rcases List.mem_append.mp hs with hs | hs
      · obtain ⟨g, hg, hsg⟩ := hrep s hs
        exact ⟨g, List.mem_append_left _ hg, hsg⟩
      · rw [List.mem_singleton] at hs
        subst hs
        exact ⟨[s], List.mem_append_right _ (List.mem_singleton_self _),
          List.mem_singleton_self _⟩
    · intro k g hkg
      rcases List.mem_append.mp hkg with hkg | hkg
      · obtain ⟨s, hs, he⟩ := hcov k g hkg
        exact ⟨s, List.mem_append_left _ hs, he⟩
      · rw [List.mem_singleton] at hkg
        cases hkg
        exact ⟨s0, List.mem_append_right _ (List.mem_singleton_self _), rfl⟩
  · have hprevmem : (toGrid s0.lat s0.lon, g0) ∈ acc := alookup_some_mem halo
    show gridInv toGrid (seen ++ [s0])
        (aupdate (toGrid s0.lat s0.lon) (fun g => g ++ [s0]) acc)
    refine ⟨?_, ?_, ?_, ?_⟩
    · rw [aupdate_map_fst]
      exact hnd
    · intro k g hkg
      rcases mem_aupdate hnd hkg with ⟨hold, _⟩ | ⟨hkeq, g1, hg1, hge⟩
      · exact hkey k g hold
      · subst hkeq
        subst hge
        intro s hs
        rcases List.mem_append.mp hs with hs | hs
        · exact hkey _ g1 hg1 s hs
        · rw [List.mem_singleton] at hs
          subst hs
          rfl
    · intro s hs
      rcases List.mem_append.mp hs with hs | hs
      · obtain ⟨g, hg, hsg⟩ := hrep s hs
        by_cases hk : toGrid s.lat s.lon = toGrid s0.lat s0.lon
        · refine ⟨g ++ [s0], ?_, List.mem_append_left _ hsg⟩
          rw [hk]
          rw [hk] at hg
          exact mem_aupdate_self _ hnd hg
        · exact ⟨g, mem_aupdate_of_ne _ hk hg, hsg⟩
      · rw [List.mem_singleton] at hs
        subst hs
        exact ⟨g0 ++ [s], mem_aupdate_self _ hnd hprevmem,
          List.mem_append_right _ (List.mem_singleton_self _)⟩
    · intro k g hkg
      rcases mem_aupdate hnd hkg with ⟨hold, _⟩ | ⟨hkeq, g1, _, _⟩
      · obtain ⟨s, hs, he⟩ := hcov k g hold
        exact ⟨s, List.mem_append_left _ hs, he⟩
      · subst hkeq
        exact ⟨s0, List.mem_append_right _ (List.mem_singleton_self _), rfl⟩

theorem foldl_addStation_inv (toGrid : ℚ → ℚ → Int × Int) (stations : List PStation) :
    ∀ (seen : List PStation) (acc : List ((Int × Int) × List PStation)),
      gridInv toGrid seen acc →
      gridInv toGrid (seen ++ stations) (stations.foldl (addStation toGrid) acc) := by
  induction stations with
  | nil =>
    intro seen acc h
    simpa using h
  | cons s0 rest ih =>
    intro seen acc h
    rw [List.append_cons]
    exact ih (seen ++ [s0]) (addStation toGrid acc s0) (addStation_inv s0 h)

theorem gridGroups_inv (toGrid : ℚ → ℚ → Int × Int) (stations : List PStation) :
    gridInv toGrid stations (gridGroups toGrid stations) := by
  have h0 : gridInv toGrid [] [] := by
    refine ⟨List.nodup_nil, ?_, ?_, ?_⟩
    · intro k g hkg
      cases hkg
    · intro s hs
      cases hs
    · intro k g hkg
      cases hkg
  have h := foldl_addStation_inv toGrid stations [] [] h0
  simpa using h

theorem processCells_fetches (fetch : Int × Int → Option ℚ)
    (cells : List ((Int × Int) × List PStation)) :
    (processCells fetch cells).fetches = cells.map Prod.fst := by
  induction cells with
  | nil => rfl
  | cons c rest ih =>
    rw [processCells_cons]
    show (cellLog fetch c).fetches ++ (processCells fetch rest).fetches = _
    rw [ih]
    rfl

theorem cellLog_evals_mem (fetch : Int × Int → Option ℚ) (c : (Int × Int) × List PStation)
    (s : PStation) (v : ℚ) (g : Int × Int) :
    (s, v, g) ∈ (cellLog fetch c).evals ↔ g = c.1 ∧ s ∈ c.2 ∧ fetch c.1 = some v := by
  unfold cellLog
  rcases hf : fetch c.1 with _ | v0
  · simp
  · simp only [List.mem_map]
    constructor
    · rintro ⟨s1, hs1, he⟩
      obtain ⟨h1, h2⟩ := Prod.mk.inj he
      obtain ⟨h3, h4⟩ := Prod.mk.inj h2
      subst h1
      subst h3
      subst h4
      exact ⟨rfl, hs1, rfl⟩
    · rintro ⟨rfl, hs, hv⟩
      cases Option.some.inj hv
      exact ⟨s, hs, rfl⟩

theorem processCells_evals_mem (fetch : Int × Int → Option ℚ)
    (cells : List ((Int × Int) × List PStation)) (s : PStation) (v : ℚ) (g : Int × Int) :
    (s, v, g) ∈ (processCells fetch cells).evals ↔
      ∃ grp, (g, grp) ∈ cells ∧ s ∈ grp ∧ fetch g = some v := by
  induction cells with
  | nil =>
    constructor
    · intro h
      cases h
    · rintro ⟨grp, hgrp, _, _⟩
      cases hgrp
  | cons c rest ih =>
    rw [processCells_cons]
    show (s, v, g) ∈ (cellLog fetch c).evals ++ (processCells fetch rest).evals ↔ _
    rw [List.mem_append, cellLog_evals_mem, ih]
    constructor
    · rintro (⟨rfl, hs, hv⟩ | ⟨grp, hgrp, hs, hv⟩)
      · exact ⟨c.2, List.mem_cons_self _ _, hs, hv⟩
      · exact ⟨grp, List.mem_cons_of_mem _ hgrp, hs, hv⟩
    · rintro ⟨grp, hgrp, hs, hv⟩
      rcases List.mem_cons.mp hgrp with h1 | h1
      · subst h1
        exact Or.inl ⟨rfl, hs, hv⟩
      · exact Or.inr ⟨grp, h1, hs, hv⟩

/-- C6: in one `processStations` cycle the external realtime fetch is
issued exactly once per distinct grid cell of the processed stations (the
fetch log is duplicate-free and contains exactly the projected cells), and
every station's alarm evaluation receives its own cell's single fetched
value — so any two stations of the same cell are evaluated with the same
realtime value. -/
theorem C6_one_fetch_per_cell (toGrid : ℚ → ℚ → Int × Int) (fetch : Int × Int → Option ℚ)
    (stations : List PStation) :
    (processStations toGrid fetch stations).fetches.Nodup ∧
    (∀ k, k ∈ (processStations toGrid fetch stations).fetches ↔
      ∃ s, s ∈ stations ∧ toGrid s.lat s.lon = k) ∧
    (∀ s v g, (s, v, g) ∈ (processStations toGrid fetch stations).evals →
      g = toGrid s.lat s.lon ∧ fetch (toGrid s.lat s.lon) = some v) ∧
    (∀ s, s ∈ stations → ∀ v, fetch (toGrid s.lat s.lon) = some v →
      (s, v, toGrid s.lat s.lon) ∈ (processStations toGrid fetch stations).evals) ∧
    (∀ s1 v1 g1 s2 v2 g2,
      (s1, v1, g1) ∈ (processStations toGrid fetch stations).evals →
      (s2, v2, g2) ∈ (processStations toGrid fetch stations).evals →
      toGrid s1.lat s1.lon = toGrid s2.lat s2.lon → v1 = v2) := by
  obtain ⟨hnd, hkey, hrep, hcov⟩ := gridGroups_inv toGrid stations
  rw [processStations_eq]
  have hevals : ∀ s v g, (s, v, g) ∈ (processCells fetch (gridGroups toGrid stations)).evals →
      g = toGrid s.lat s.lon ∧ fetch (toGrid s.lat s.lon) = some v := by
    intro s v g hm
    obtain ⟨grp, hgrp, hs, hv⟩ := (processCells_evals_mem fetch _ s v g).mp hm
    have hg : toGrid s.lat s.lon = g := hkey g grp hgrp s hs
    exact ⟨hg.symm, hg ▸ hv⟩
  refine ⟨?_, ?_, hevals, ?_, ?_⟩
  · rw [processCells_fetches]
    exact hnd
  · intro k
    rw [processCells_fetches]
    constructor
    · intro hk
      obtain ⟨g, hg⟩ := mem_keys_exists hk
      obtain ⟨s, hs, he⟩ := hcov k g hg
      exact ⟨s, hs, he⟩
    · rintro ⟨s, hs, rfl⟩
      obtain ⟨g, hg, _⟩ := hrep s hs
      exact List.mem_map_of_mem Prod.fst hg
  · intro s hs v hv
    obtain ⟨g, hg, hsg⟩ := hrep s hs
    exact (processCells_evals_mem fetch _ s v _).mpr ⟨g, hg, hsg, hv⟩
  · intro s1 v1 g1 s2 v2 g2 h1 h2 heq
    have hv1 := (hevals s1 v1 g1 h1).2
    have hv2 := (hevals s2 v2 g2 h2).2
    rw [heq] at hv1
    rw [hv1] at hv2
    exact Option.some.inj hv2

def demoStationA : PStation := ⟨1, 37, 127⟩

def demoStationB : PStation := ⟨2, 37, 127⟩

def demoStationC : PStation := ⟨3, 35, 129⟩

def demoToGrid : ℚ → ℚ → Int × Int := fun la _ => (if la = 37 then 60 else 98, 76)

def demoFetch : Int × Int → Option ℚ := fun k => if k.1 = 60 then some 3 else none

/-- Witness for C6 at a concrete cycle: stations A and B share cell
`(60, 76)`, station C is elsewhere; both A and B are evaluated with the
cell's single fetched value 3, and the fetch log has no duplicate cell. -/
theorem C6_one_fetch_per_cell_witness :
    (demoStationA, (3 : ℚ), ((60 : Int), (76 : Int))) ∈
      (processStations demoToGrid demoFetch [demoStationA, demoStationB, demoStationC]).evals ∧
    (demoStationB, (3 : ℚ), ((60 : Int), (76 : Int))) ∈
      (processStations demoToGrid demoFetch [demoStationA, demoStationB, demoStationC]).evals ∧
    (processStations demoToGrid demoFetch [demoStationA, demoStationB, demoStationC]).fetches.Nodup := by
  have h := C6_one_fetch_per_cell demoToGrid demoFetch [demoStationA, demoStationB, demoStationC]
  refine ⟨?_, ?_, h.1⟩
  · have := h.2.2.2.1 demoStationA (by decide) 3 (by decide)
    simpa [demoToGrid, demoStationA] using this
  · have := h.2.2.2.1 demoStationB (by decide) 3 (by decide)
    simpa [demoToGrid, demoStationB] using this
